import Mathlib

/-!
Verification of the aggregation and fraud-signal engine of the
`fraud-detector` repository (`main.go`, function `generateReport` and the
data types it works over).

Shallow embedding conventions:
* Go `int`/`int64` values are modelled as `Int` (no overflow is exercised by
  the statements below).
* Go `float64` timestamps and RTP percentages are modelled as `Rat`;
  `int64(ts)` truncation (toward zero) is `truncToSec`.
* Go maps are modelled as association lists in first-insertion order, with
  zero-value-on-missing-key reads (`lookupD`) mirroring Go map reads.
  Go map iteration order is unspecified; every property proved below is
  insensitive to that order (counts, per-key lookups, sorted output).
* `sort.Slice` is not a stable sort and Go specifies only that the result is
  a sorted permutation.  The executable model uses the (stable) `mergeSort`
  as one admissible outcome; `sortSliceSpec` below captures the actual
  contract of `sort.Slice`, and is used where tie order matters.
* The Go code formats timestamps into strings with `time.Format`; the model
  keeps the truncated Unix seconds (`time` fields) and renders the time-span
  string with `formatUnix`.  The claims depend only on (non-)emptiness of
  these strings, never on the exact rendering.
-/

namespace FraudDetector

/-- The fields of Go struct `GameData` that `generateReport` reads. -/
structure GameData where
  message : String
  playerID : String
  gameID : String
  roundID : String
  ts : Rat
  betID : String
  winID : String
  bet : Int
  win : Int
  balance : Int
  deriving Repr, DecidableEq

/-- Go struct `TopBet`; the `time` field stands for the formatted time string
(`time.Unix(int64(ts),0).Format(...)`), represented by the truncated seconds. -/
structure TopBet where
  amount : Int
  roundID : String
  time : Int
  deriving Repr, DecidableEq

/-- Go struct `TopWin`. -/
structure TopWin where
  amount : Int
  roundID : String
  time : Int
  deriving Repr, DecidableEq

/-- Go struct `PlayerStat`; defaults are the Go zero value of the struct. -/
structure PlayerStat where
  playerID : String := ""
  rtp : Rat := 0
  totalBetAmount : Int := 0
  totalWinAmount : Int := 0
  netResult : Int := 0
  lastBalance : Int := 0
  totalBets : Int := 0
  totalWins : Int := 0
  topBets : List TopBet := []
  topWins : List TopWin := []
  deriving Repr, DecidableEq

/-- Go struct `GameStat`; defaults are the Go zero value of the struct. -/
structure GameStat where
  gameID : String := ""
  rtp : Rat := 0
  totalBetAmount : Int := 0
  totalWinAmount : Int := 0
  totalBets : Int := 0
  totalWins : Int := 0
  players : Int := 0
  deriving Repr, DecidableEq

/-- Go struct `TimeStat`; defaults are the Go zero value of the struct. -/
structure TimeStat where
  hour : Int := 0
  totalBets : Int := 0
  totalWins : Int := 0
  totalBetAmount : Int := 0
  totalWinAmount : Int := 0
  deriving Repr, DecidableEq

/-- Go struct `SuspiciousEvent`.  The Go `Details` string is
`fmt.Sprintf("RTP: %.2f%%, Bets: %d", rtp, bets)`; the model records the two
formatted arguments directly. -/
structure SuspiciousEvent where
  type : String
  description : String
  playerID : String
  timestamp : String := ""
  detailRtp : Rat := 0
  detailBets : Int := 0
  deriving Repr, DecidableEq

/-- Go struct `Summary`. -/
structure Summary where
  totalBets : Int
  totalWins : Int
  totalBetAmount : Int
  totalWinAmount : Int
  netResult : Int
  rtp : Rat
  uniquePlayers : Int
  uniqueGames : Int
  timeSpan : String
  deriving Repr, DecidableEq

/-- Go struct `Report`.  The maps are association lists in first-insertion
order (Go map iteration order is unspecified; all claims below are
order-insensitive). -/
structure Report where
  summary : Summary
  playerStats : List (String × PlayerStat)
  gameStats : List (String × GameStat)
  timeStats : List TimeStat
  suspiciousEvents : List SuspiciousEvent
  deriving Repr, DecidableEq

/-! ### Go map model: association lists with zero-value default reads -/

/-- Go map read `m[k]`: the stored value, or the zero value `d` when absent. -/
def lookupD {κ α : Type} [DecidableEq κ] (m : List (κ × α)) (k : κ) (d : α) : α :=
  match m with
  | [] => d
  | (k', v) :: rest => if k' = k then v else lookupD rest k d

/-- Go map write `m[k] = v`: replace in place, or append a new key. -/
def setA {κ α : Type} [DecidableEq κ] (m : List (κ × α)) (k : κ) (v : α) :
    List (κ × α) :=
  match m with
  | [] => [(k, v)]
  | (k', v') :: rest => if k' = k then (k, v) :: rest else (k', v') :: setA rest k v

/-- Go map membership test `_, ok := m[k]`. -/
def containsK {κ α : Type} [DecidableEq κ] (m : List (κ × α)) (k : κ) : Bool :=
  match m with
  | [] => false
  | (k', _) :: rest => k' = k || containsK rest k

/-- Go `set[k] = true` on a `map[string]bool` used as a set. -/
def insertSet (xs : List String) (k : String) : List String :=
  if k ∈ xs then xs else xs ++ [k]

/-! ### Timestamp handling -/

/-- Go `int64(ts)` for a `float64` timestamp: truncation toward zero. -/
def truncToSec (q : Rat) : Int := q.num / (q.den : Int)

/-- Go `time.Unix(t, 0).Hour()`, modelled for the UTC timezone: the
wall-clock hour in `0..23`.  (The Go code uses the local timezone; no claim
depends on the concrete hour value, only on bucket bookkeeping.) -/
def hourOf (t : Int) : Int := (Int.fdiv t 3600) % 24

/-- Go `time.Unix(t, 0).Format("2006-01-02 15:04:05")`: some rendering of the
truncated seconds.  The claims depend only on the string being non-empty. -/
def formatUnix (t : Int) : String := toString t

/-- The `Summary.TimeSpan` string `fmt.Sprintf("%s - %s", ...)`. -/
def timeSpanString (a b : Rat) : String :=
  formatUnix (truncToSec a) ++ " - " ++ formatUnix (truncToSec b)

/-! ### The aggregation state (the local variables of `generateReport`) -/

/-- The mutable state of the event loop in `generateReport`: the locals
`totalBets`, ..., `duplicateWins` together with the report's two stat maps
that the loop fills in. -/
structure AggState where
  playerStats : List (String × PlayerStat) := []
  gameStats : List (String × GameStat) := []
  totalBets : Int := 0
  totalWins : Int := 0
  totalBetAmount : Int := 0
  totalWinAmount : Int := 0
  uniquePlayers : List String := []
  uniqueGames : List String := []
  uniqueBetIDs : List String := []
  uniqueWinIDs : List String := []
  timeStats : List (Int × TimeStat) := []
  minTime : Rat := -1
  maxTime : Rat := 0
  playerBalances : List (String × List Int) := []
  duplicateBets : Int := 0
  duplicateWins : Int := 0
  deriving Repr, DecidableEq

/-- The initial state of the loop (Go zero values; `minTime = -1` sentinel). -/
def initState : AggState := {}

/-- `data.Message == "SendBet" && data.Bet > 0`. -/
def isBetEvent (d : GameData) : Prop := d.message = "SendBet" ∧ 0 < d.bet

instance (d : GameData) : Decidable (isBetEvent d) :=
  inferInstanceAs (Decidable (_ ∧ _))

/-- `data.Message == "SendWin" && data.Win > 0`. -/
def isWinEvent (d : GameData) : Prop := d.message = "SendWin" ∧ 0 < d.win

instance (d : GameData) : Decidable (isWinEvent d) :=
  inferInstanceAs (Decidable (_ ∧ _))

/-- `data.BetID != "" && uniqueBetIDs[data.BetID]`: the bet identifier is
non-empty and was already accepted. -/
def isDupBet (s : AggState) (d : GameData) : Prop :=
  d.betID ≠ "" ∧ d.betID ∈ s.uniqueBetIDs

instance (s : AggState) (d : GameData) : Decidable (isDupBet s d) :=
  inferInstanceAs (Decidable (_ ∧ _))

/-- `data.WinID != "" && uniqueWinIDs[data.WinID]`. -/
def isDupWin (s : AggState) (d : GameData) : Prop :=
  d.winID ≠ "" ∧ d.winID ∈ s.uniqueWinIDs

instance (s : AggState) (d : GameData) : Decidable (isDupWin s d) :=
  inferInstanceAs (Decidable (_ ∧ _))

/-- A Bet event that is counted: positive `SendBet` not judged duplicate. -/
def isBetCounted (s : AggState) (d : GameData) : Prop :=
  isBetEvent d ∧ ¬ isDupBet s d

instance (s : AggState) (d : GameData) : Decidable (isBetCounted s d) :=
  inferInstanceAs (Decidable (_ ∧ _))

/-- A Win event that is counted: positive `SendWin` not judged duplicate. -/
def isWinCounted (s : AggState) (d : GameData) : Prop :=
  isWinEvent d ∧ ¬ isDupWin s d

instance (s : AggState) (d : GameData) : Decidable (isWinCounted s d) :=
  inferInstanceAs (Decidable (_ ∧ _))

/-- The updates `generateReport` performs on every event before the
bet/win branch and before any duplicate check: unique player/game sets,
min/max time bounds, the `playerBalances` list, and the instantiation of the
hour bucket (`timeStats[hour] = TimeStat{Hour: hour}` if absent). -/
def preUpdate (s : AggState) (d : GameData) : AggState :=
  let h := hourOf (truncToSec d.ts)
  { s with
    uniquePlayers := insertSet s.uniquePlayers d.playerID
    uniqueGames := insertSet s.uniqueGames d.gameID
    maxTime := if d.ts > s.maxTime then d.ts else s.maxTime
    minTime := if s.minTime < 0 ∨ d.ts < s.minTime then d.ts else s.minTime
    playerBalances :=
      setA s.playerBalances d.playerID
        (lookupD s.playerBalances d.playerID [] ++ [d.balance])
    timeStats :=
      if containsK s.timeStats h then s.timeStats
      else setA s.timeStats h { hour := h } }

/-- The player-record update of the accepted-Bet branch (lines 311–323 of
`main.go`).  Note `pStat.PlayerID` is assigned here (and only here). -/
def betUpdateP (p : PlayerStat) (d : GameData) : PlayerStat :=
  { p with
    playerID := d.playerID
    totalBets := p.totalBets + 1
    totalBetAmount := p.totalBetAmount + d.bet
    lastBalance := d.balance
    topBets :=
      p.topBets ++ [{ amount := d.bet, roundID := d.roundID, time := truncToSec d.ts }] }

/-- The game-record update of the accepted-Bet branch (lines 327–335).
`gStat.GameID` is assigned here (and only here); the Go
`if !exists { gStat.Players = 0 }` there is a no-op on the zero value. -/
def betUpdateG (g : GameStat) (d : GameData) : GameStat :=
  { g with
    gameID := d.gameID
    totalBets := g.totalBets + 1
    totalBetAmount := g.totalBetAmount + d.bet }

/-- The hour-bucket update of the accepted-Bet branch (lines 337–341). -/
def betUpdateT (u : TimeStat) (d : GameData) : TimeStat :=
  { u with totalBets := u.totalBets + 1, totalBetAmount := u.totalBetAmount + d.bet }

/-- The player-record update of the accepted-Win branch (lines 357–369).
Unlike the Bet branch it does not assign `pStat.PlayerID`. -/
def winUpdateP (p : PlayerStat) (d : GameData) : PlayerStat :=
  { p with
    totalWins := p.totalWins + 1
    totalWinAmount := p.totalWinAmount + d.win
    lastBalance := d.balance
    topWins :=
      p.topWins ++ [{ amount := d.win, roundID := d.roundID, time := truncToSec d.ts }] }

/-- The game-record update of the accepted-Win branch (lines 373–377); it
does not assign `gStat.GameID`. -/
def winUpdateG (g : GameStat) (d : GameData) : GameStat :=
  { g with totalWins := g.totalWins + 1, totalWinAmount := g.totalWinAmount + d.win }

/-- The hour-bucket update of the accepted-Win branch (lines 379–383). -/
def winUpdateT (u : TimeStat) (d : GameData) : TimeStat :=
  { u with totalWins := u.totalWins + 1, totalWinAmount := u.totalWinAmount + d.win }

/-- The accepted-Bet branch of the loop (lines 296–341 of `main.go`):
register the bet identifier, bump the global counters, and update the
player, game and hour records. -/
def applyBet (s : AggState) (d : GameData) : AggState :=
  let h := hourOf (truncToSec d.ts)
  { s with
    uniqueBetIDs :=
      if d.betID = "" then s.uniqueBetIDs else insertSet s.uniqueBetIDs d.betID
    totalBets := s.totalBets + 1
    totalBetAmount := s.totalBetAmount + d.bet
    playerStats :=
      setA s.playerStats d.playerID (betUpdateP (lookupD s.playerStats d.playerID {}) d)
    gameStats :=
      setA s.gameStats d.gameID (betUpdateG (lookupD s.gameStats d.gameID {}) d)
    timeStats :=
      setA s.timeStats h (betUpdateT (lookupD s.timeStats h { hour := h }) d) }

/-- The accepted-Win branch of the loop (lines 343–384 of `main.go`). -/
def applyWin (s : AggState) (d : GameData) : AggState :=
  let h := hourOf (truncToSec d.ts)
  { s with
    uniqueWinIDs :=
      if d.winID = "" then s.uniqueWinIDs else insertSet s.uniqueWinIDs d.winID
    totalWins := s.totalWins + 1
    totalWinAmount := s.totalWinAmount + d.win
    playerStats :=
      setA s.playerStats d.playerID (winUpdateP (lookupD s.playerStats d.playerID {}) d)
    gameStats :=
      setA s.gameStats d.gameID (winUpdateG (lookupD s.gameStats d.gameID {}) d)
    timeStats :=
      setA s.timeStats h (winUpdateT (lookupD s.timeStats h { hour := h }) d) }

/-- One iteration of the event loop of `generateReport`. -/
def step (s : AggState) (d : GameData) : AggState :=
  let s1 := preUpdate s d
  if isBetEvent d then
    if isDupBet s1 d then { s1 with duplicateBets := s1.duplicateBets + 1 }
    else applyBet s1 d
  else if isWinEvent d then
    if isDupWin s1 d then { s1 with duplicateWins := s1.duplicateWins + 1 }
    else applyWin s1 d
  else s1

/-- The whole event loop, from an arbitrary starting state. -/
def foldEvents (s : AggState) (evs : List GameData) : AggState := evs.foldl step s

/-- The whole event loop of `generateReport`, from the initial state. -/
def foldAgg (evs : List GameData) : AggState := foldEvents initState evs

/-! ### Finalization (lines 388–466 of `main.go`) -/

/-- The comparison handed to `sort.Slice` for top bets:
`pStat.TopBets[i].Amount > pStat.TopBets[j].Amount`. -/
def betLess (a b : TopBet) : Bool := b.amount < a.amount

/-- The comparison handed to `sort.Slice` for top wins. -/
def winLess (a b : TopWin) : Bool := b.amount < a.amount

/-- The contract Go gives for `sort.Slice less input`: the output is a
permutation of the input in which no pair is out of order with respect to
`less`.  `sort.Slice` is documented as NOT stable, so nothing more than this
is guaranteed about the order of entries that compare equal. -/
def sortSliceSpec {α : Type} (less : α → α → Bool) (input output : List α) : Prop :=
  input.Perm output ∧ output.Pairwise (fun a b => less b a = false)

/-- Per-player finalization: net result, RTP (left at the zero value when
`TotalBetAmount` is not positive), and the sorted, truncated top lists.
The sort is `sort.Slice`, which guarantees only a sorted permutation; this
executable model picks the stable `mergeSort` as one admissible outcome
(claim analyses that depend on tie order use `sortSliceSpec` instead). -/
def finalizePlayer (p : PlayerStat) : PlayerStat :=
  let p1 := { p with netResult := p.totalWinAmount - p.totalBetAmount }
  let p2 :=
    if 0 < p1.totalBetAmount then
      { p1 with rtp := (p1.totalWinAmount : Rat) / (p1.totalBetAmount : Rat) * 100 }
    else p1
  let tb := p2.topBets.mergeSort (fun a b => decide (b.amount ≤ a.amount))
  let tb := if 5 < tb.length then tb.take 5 else tb
  let tw := p2.topWins.mergeSort (fun a b => decide (b.amount ≤ a.amount))
  let tw := if 5 < tw.length then tw.take 5 else tw
  { p2 with topBets := tb, topWins := tw }

/-- The fraud screen applied to a finalized player record (lines 413–420):
at most one `High RTP` suspicious event, emitted iff `TotalBets > 100` and
`RTP > 150`, both strict. -/
def screenPlayer (k : String) (p : PlayerStat) : Option SuspiciousEvent :=
  if 100 < p.totalBets ∧ 150 < p.rtp then
    some { type := "High RTP"
           description := "Player has suspiciously high RTP"
           playerID := k
           detailRtp := p.rtp
           detailBets := p.totalBets }
  else none

/-- The second pass at finalization (lines 428–433): the set of distinct
players appearing on ANY event whose `GameID` equals `g`, built with a
`map[string]bool`. -/
def playersInGame (gameData : List GameData) (g : String) : List String :=
  gameData.foldl (fun acc d => if d.gameID = g then insertSet acc d.playerID else acc) []

/-- Per-game finalization: RTP (zero-value when no positive bet amount) and
the recomputed distinct-player count. -/
def finalizeGame (gameData : List GameData) (g : String) (st : GameStat) : GameStat :=
  let st1 :=
    if 0 < st.totalBetAmount then
      { st with rtp := (st.totalWinAmount : Rat) / (st.totalBetAmount : Rat) * 100 }
    else st
  { st1 with players := ((playersInGame gameData g).length : Int) }

/-- `generateReport` (lines 246–483 of `main.go`): fold the events, finalize
player and game records, screen for suspicious players, sort the hour
buckets, and assemble the summary.  Player/game map iteration is modelled in
first-insertion order (Go's order is unspecified; the claims are
order-insensitive).  The hour keys are distinct, so sorting them ascending by
`Hour` is deterministic. -/
def generateReport (gameData : List GameData) : Report :=
  let s := foldAgg gameData
  let finalized := s.playerStats.map (fun kp => (kp.1, finalizePlayer kp.2))
  { summary :=
      { totalBets := s.totalBets
        totalWins := s.totalWins
        totalBetAmount := s.totalBetAmount
        totalWinAmount := s.totalWinAmount
        netResult := s.totalWinAmount - s.totalBetAmount
        rtp :=
          if 0 < s.totalBetAmount then
            (s.totalWinAmount : Rat) / (s.totalBetAmount : Rat) * 100
          else 0
        uniquePlayers := (s.uniquePlayers.length : Int)
        uniqueGames := (s.uniqueGames.length : Int)
        timeSpan :=
          if 0 ≤ s.minTime ∧ s.minTime < s.maxTime then
            timeSpanString s.minTime s.maxTime
          else "" }
    playerStats := finalized
    gameStats := s.gameStats.map (fun kg => (kg.1, finalizeGame gameData kg.1 kg.2))
    timeStats := (s.timeStats.map Prod.snd).mergeSort (fun a b => decide (a.hour ≤ b.hour))
    suspiciousEvents := finalized.filterMap (fun kp => screenPlayer kp.1 kp.2) }

/-- The duplicate-bet diagnostic counter surfaced by `generateReport`
(printed, not part of the `Report` struct). -/
def duplicateBetCount (evs : List GameData) : Int := (foldAgg evs).duplicateBets

/-- The duplicate-win diagnostic counter. -/
def duplicateWinCount (evs : List GameData) : Int := (foldAgg evs).duplicateWins

/-! ### Pure replays of the acceptance decisions

These lists name, for a given stream, exactly the events the loop counts:
`acceptedBetList s evs` are the events of `evs` that are counted as bets when
the loop starts in state `s` (kind `SendBet`, positive amount, not judged
duplicate at their point in the stream); symmetrically for wins, and
`countedEvents` merges both in stream order. -/

def acceptedBetList (s : AggState) : List GameData → List GameData
  | [] => []
  | d :: rest =>
    if isBetCounted s d then d :: acceptedBetList (step s d) rest
    else acceptedBetList (step s d) rest

def acceptedWinList (s : AggState) : List GameData → List GameData
  | [] => []
  | d :: rest =>
    if isWinCounted s d then d :: acceptedWinList (step s d) rest
    else acceptedWinList (step s d) rest

def countedEvents (s : AggState) : List GameData → List GameData
  | [] => []
  | d :: rest =>
    if isBetCounted s d ∨ isWinCounted s d then d :: countedEvents (step s d) rest
    else countedEvents (step s d) rest

/-! ### Lemmas about the map and set helpers -/

section MapLemmas

variable {κ α : Type} [DecidableEq κ]

theorem lookupD_setA_self (m : List (κ × α)) (k : κ) (v d : α) :
    lookupD (setA m k v) k d = v := by
  induction m with
  | nil => simp [setA, lookupD]
  | cons hd tl ih =>
    obtain ⟨k', v'⟩ := hd
    by_cases h : k' = k <;> simp [setA, lookupD, h, ih]

theorem lookupD_setA_ne (m : List (κ × α)) {k k' : κ} (h : k ≠ k') (v d : α) :
    lookupD (setA m k v) k' d = lookupD m k' d := by
  induction m with
  | nil => simp [setA, lookupD, h]
  | cons hd tl ih =>
    obtain ⟨k'', v''⟩ := hd
    by_cases h2 : k'' = k
    · subst h2
      simp [setA, lookupD, h]
    · simp [setA, lookupD, h2, ih]

theorem mem_setA {m : List (κ × α)} {k : κ} {v : α} {x : κ × α}
    (hx : x ∈ setA m k v) : x = (k, v) ∨ x ∈ m := by
  induction m with
  | nil => simpa [setA] using hx
  | cons hd tl ih =>
    obtain ⟨k', v'⟩ := hd
    by_cases h : k' = k
    · simp only [setA, if_pos h] at hx
      rcases List.mem_cons.mp hx with h1 | h1
      · exact Or.inl h1
      · exact Or.inr (List.mem_cons_of_mem _ h1)
    · simp only [setA, if_neg h] at hx
      rcases List.mem_cons.mp hx with h1 | h1
      · exact Or.inr (by simp [h1])
      · rcases ih h1 with h2 | h2
        · exact Or.inl h2
        · exact Or.inr (List.mem_cons_of_mem _ h2)

theorem lookupD_mem (m : List (κ × α)) (k : κ) (d : α) :
    lookupD m k d = d ∨ (k, lookupD m k d) ∈ m := by
  induction m with
  | nil => simp [lookupD]
  | cons hd tl ih =>
    obtain ⟨k', v'⟩ := hd
    by_cases h : k' = k
    · subst h
      simp [lookupD]
    · rcases ih with h1 | h1
      · exact Or.inl (by simp [lookupD, h, h1])
      · refine Or.inr ?_
        simp only [lookupD, if_neg h]
        exact List.mem_cons_of_mem _ h1

theorem keys_setA (m : List (κ × α)) (k : κ) (v : α) :
    (setA m k v).map Prod.fst =
      if containsK m k then m.map Prod.fst else m.map Prod.fst ++ [k] := by
  induction m with
  | nil => simp [setA, containsK]
  | cons hd tl ih =>
    obtain ⟨k', v'⟩ := hd
    by_cases h : k' = k
    · simp [setA, containsK, h]
    · simp only [setA, if_neg h, containsK, List.map_cons, ih]
      by_cases h2 : containsK tl k = true <;> simp [h, h2]

theorem containsK_iff_mem_keys (m : List (κ × α)) (k : κ) :
    containsK m k = true ↔ k ∈ m.map Prod.fst := by
  induction m with
  | nil => simp [containsK]
  | cons hd tl ih =>
    obtain ⟨k', v'⟩ := hd
    by_cases h : k' = k
    · simp [containsK, h]
    · have h' : ¬ k = k' := fun hh => h hh.symm
      simp [containsK, h, h', ih]

theorem keys_nodup_setA {m : List (κ × α)} (hnd : (m.map Prod.fst).Nodup)
    (k : κ) (v : α) : ((setA m k v).map Prod.fst).Nodup := by
  rw [keys_setA]
  by_cases h : containsK m k = true
  · simpa [h]
  · have hk : k ∉ m.map Prod.fst := fun hmem => h ((containsK_iff_mem_keys m k).mpr hmem)
    simp only [h, if_false]
    refine List.Nodup.append hnd (List.nodup_singleton k) ?_
    intro a ha hb
    rw [List.mem_singleton] at hb
    exact hk (hb ▸ ha)

theorem lookupD_eq_of_not_contains {m : List (κ × α)} {k : κ}
    (h : containsK m k = false) (d : α) : lookupD m k d = d := by
  induction m with
  | nil => simp [lookupD]
  | cons hd tl ih =>
    obtain ⟨k', v'⟩ := hd
    simp only [containsK, Bool.or_eq_false_iff, decide_eq_false_iff_not] at h
    simp [lookupD, h.1, ih h.2]

theorem mem_of_nodup_lookupD {m : List (κ × α)} (hnd : (m.map Prod.fst).Nodup)
    {k : κ} {v : α} (hm : (k, v) ∈ m) (d : α) : lookupD m k d = v := by
  induction m with
  | nil => simp at hm
  | cons hd tl ih =>
    obtain ⟨k', v'⟩ := hd
    simp only [List.map_cons, List.nodup_cons] at hnd
    rcases List.mem_cons.mp hm with h1 | h1
    · cases h1
      simp [lookupD]
    · have hk : k' ≠ k := by
        intro h
        subst h
        exact hnd.1 (List.mem_map_of_mem Prod.fst h1)
      simp [lookupD, hk, ih hnd.2 h1]

theorem mem_insertSet {xs : List String} {k x : String} :
    x ∈ insertSet xs k ↔ x ∈ xs ∨ x = k := by
  unfold insertSet
  by_cases h : k ∈ xs
  · simp only [if_pos h]
    constructor
    · exact Or.inl
    · rintro (h1 | h1)
      · exact h1
      · exact h1 ▸ h
  · simp [if_neg h]

theorem insertSet_nodup {xs : List String} (hnd : xs.Nodup) (k : String) :
    (insertSet xs k).Nodup := by
  unfold insertSet
  by_cases h : k ∈ xs
  · simpa [h]
  · simp only [h, if_false]
    refine List.Nodup.append hnd (List.nodup_singleton k) ?_
    intro a ha hb
    rw [List.mem_singleton] at hb
    exact h (hb ▸ ha)

theorem insertSet_toFinset (xs : List String) (k : String) :
    (insertSet xs k).toFinset = insert k xs.toFinset := by
  ext x
  simp [mem_insertSet, or_comm, eq_comm]

theorem mem_insertSet_self (xs : List String) (k : String) : k ∈ insertSet xs k :=
  mem_insertSet.mpr (Or.inr rfl)

theorem mem_insertSet_of_mem {xs : List String} {x : String} (h : x ∈ xs)
    (k : String) : x ∈ insertSet xs k := mem_insertSet.mpr (Or.inl h)

end MapLemmas

/-! ### Case analysis of `step` -/

theorem bet_not_win {d : GameData} (h : isBetEvent d) : ¬ isWinEvent d := by
  intro hw
  have : "SendBet" = "SendWin" := h.1.symm.trans hw.1
  exact absurd this (by decide)

theorem step_eq_dupBet {s : AggState} {d : GameData}
    (h1 : isBetEvent d) (h2 : isDupBet s d) :
    step s d = { preUpdate s d with duplicateBets := s.duplicateBets + 1 } := by
  unfold step
  rw [if_pos h1, if_pos (show isDupBet (preUpdate s d) d from h2)]
  rfl

theorem step_eq_applyBet {s : AggState} {d : GameData}
    (h1 : isBetEvent d) (h2 : ¬ isDupBet s d) :
    step s d = applyBet (preUpdate s d) d := by
  unfold step
  rw [if_pos h1, if_neg (show ¬ isDupBet (preUpdate s d) d from h2)]

theorem step_eq_dupWin {s : AggState} {d : GameData}
    (h1 : isWinEvent d) (h2 : isDupWin s d) :
    step s d = { preUpdate s d with duplicateWins := s.duplicateWins + 1 } := by
  unfold step
  rw [if_neg (fun hb => bet_not_win hb h1), if_pos h1,
    if_pos (show isDupWin (preUpdate s d) d from h2)]
  rfl

theorem step_eq_applyWin {s : AggState} {d : GameData}
    (h1 : isWinEvent d) (h2 : ¬ isDupWin s d) :
    step s d = applyWin (preUpdate s d) d := by
  unfold step
  rw [if_neg (fun hb => bet_not_win hb h1), if_pos h1,
    if_neg (show ¬ isDupWin (preUpdate s d) d from h2)]

theorem step_eq_other {s : AggState} {d : GameData}
    (h1 : ¬ isBetEvent d) (h2 : ¬ isWinEvent d) :
    step s d = preUpdate s d := by
  unfold step
  rw [if_neg h1, if_neg h2]

/-! ### Projections of one `step` -/

theorem step_totalBets (s : AggState) (d : GameData) :
    (step s d).totalBets = s.totalBets + (if isBetCounted s d then 1 else 0) := by
  by_cases h1 : isBetEvent d
  · by_cases h2 : isDupBet s d
    · rw [step_eq_dupBet h1 h2]
      simp [isBetCounted, h2, preUpdate]
    · rw [step_eq_applyBet h1 h2]
      simp [isBetCounted, h1, h2, applyBet, preUpdate]
  · have hbc : ¬ isBetCounted s d := fun hc => h1 hc.1
    by_cases h3 : isWinEvent d
    · by_cases h4 : isDupWin s d
      · rw [step_eq_dupWin h3 h4]
        simp [hbc, preUpdate]
      · rw [step_eq_applyWin h3 h4]
        simp [hbc, applyWin, preUpdate]
    · rw [step_eq_other h1 h3]
      simp [hbc, preUpdate]

theorem step_totalBetAmount (s : AggState) (d : GameData) :
    (step s d).totalBetAmount =
      s.totalBetAmount + (if isBetCounted s d then d.bet else 0) := by
  by_cases h1 : isBetEvent d
  · by_cases h2 : isDupBet s d
    · rw [step_eq_dupBet h1 h2]
      simp [isBetCounted, h2, preUpdate]
    · rw [step_eq_applyBet h1 h2]
      simp [isBetCounted, h1, h2, applyBet, preUpdate]
  · have hbc : ¬ isBetCounted s d := fun hc => h1 hc.1
    by_cases h3 : isWinEvent d
    · by_cases h4 : isDupWin s d
      · rw [step_eq_dupWin h3 h4]
        simp [hbc, preUpdate]
      · rw [step_eq_applyWin h3 h4]
        simp [hbc, applyWin, preUpdate]
    · rw [step_eq_other h1 h3]
      simp [hbc, preUpdate]

theorem step_totalWins (s : AggState) (d : GameData) :
    (step s d).totalWins = s.totalWins + (if isWinCounted s d then 1 else 0) := by
  by_cases h1 : isBetEvent d
  · have hwc : ¬ isWinCounted s d := fun hc => bet_not_win h1 hc.1
    by_cases h2 : isDupBet s d
    · rw [step_eq_dupBet h1 h2]
      simp [hwc, preUpdate]
    · rw [step_eq_applyBet h1 h2]
      simp [hwc, applyBet, preUpdate]
  · by_cases h3 : isWinEvent d
    · by_cases h4 : isDupWin s d
      · rw [step_eq_dupWin h3 h4]
        simp [isWinCounted, h4, preUpdate]
      · rw [step_eq_applyWin h3 h4]
        simp [isWinCounted, h3, h4, applyWin, preUpdate]
    · have hwc : ¬ isWinCounted s d := fun hc => h3 hc.1
      rw [step_eq_other h1 h3]
      simp [hwc, preUpdate]

theorem step_totalWinAmount (s : AggState) (d : GameData) :
    (step s d).totalWinAmount =
      s.totalWinAmount + (if isWinCounted s d then d.win else 0) := by
  by_cases h1 : isBetEvent d
  · have hwc : ¬ isWinCounted s d := fun hc => bet_not_win h1 hc.1
    by_cases h2 : isDupBet s d
    · rw [step_eq_dupBet h1 h2]
      simp [hwc, preUpdate]
    · rw [step_eq_applyBet h1 h2]
      simp [hwc, applyBet, preUpdate]
  · by_cases h3 : isWinEvent d
    · by_cases h4 : isDupWin s d
      · rw [step_eq_dupWin h3 h4]
        simp [isWinCounted, h4, preUpdate]
      · rw [step_eq_applyWin h3 h4]
        simp [isWinCounted, h3, h4, applyWin, preUpdate]
    · have hwc : ¬ isWinCounted s d := fun hc => h3 hc.1
      rw [step_eq_other h1 h3]
      simp [hwc, preUpdate]

theorem step_duplicateBets (s : AggState) (d : GameData) :
    (step s d).duplicateBets =
      s.duplicateBets + (if isBetEvent d ∧ isDupBet s d then 1 else 0) := by
  by_cases h1 : isBetEvent d
  · by_cases h2 : isDupBet s d
    · rw [step_eq_dupBet h1 h2]
      simp [h1, h2]
    · rw [step_eq_applyBet h1 h2]
      simp [h2, applyBet, preUpdate]
  · by_cases h3 : isWinEvent d
    · by_cases h4 : isDupWin s d
      · rw [step_eq_dupWin h3 h4]
        simp [h1, preUpdate]
      · rw [step_eq_applyWin h3 h4]
        simp [h1, applyWin, preUpdate]
    · rw [step_eq_other h1 h3]
      simp [h1, preUpdate]

theorem step_duplicateWins (s : AggState) (d : GameData) :
    (step s d).duplicateWins =
      s.duplicateWins + (if isWinEvent d ∧ isDupWin s d then 1 else 0) := by
  by_cases h1 : isBetEvent d
  · have hw : ¬ isWinEvent d := bet_not_win h1
    by_cases h2 : isDupBet s d
    · rw [step_eq_dupBet h1 h2]
      simp [hw, preUpdate]
    · rw [step_eq_applyBet h1 h2]
      simp [hw, applyBet, preUpdate]
  · by_cases h3 : isWinEvent d
    · by_cases h4 : isDupWin s d
      · rw [step_eq_dupWin h3 h4]
        simp [h3, h4, preUpdate]
      · rw [step_eq_applyWin h3 h4]
        simp [h4, applyWin, preUpdate]
    · rw [step_eq_other h1 h3]
      simp [h3, preUpdate]

theorem step_uniqueBetIDs (s : AggState) (d : GameData) :
    (step s d).uniqueBetIDs =
      if isBetCounted s d ∧ d.betID ≠ "" then insertSet s.uniqueBetIDs d.betID
      else s.uniqueBetIDs := by
  by_cases h1 : isBetEvent d
  · by_cases h2 : isDupBet s d
    · rw [step_eq_dupBet h1 h2]
      simp [isBetCounted, h2, preUpdate]
    · rw [step_eq_applyBet h1 h2]
      by_cases h5 : d.betID = ""
      · simp [isBetCounted, h5, applyBet, preUpdate]
      · simp [isBetCounted, h1, h2, h5, applyBet, preUpdate]
  · have hbc : ¬ isBetCounted s d := fun hc => h1 hc.1
    by_cases h3 : isWinEvent d
    · by_cases h4 : isDupWin s d
      · rw [step_eq_dupWin h3 h4]
        simp [hbc, preUpdate]
      · rw [step_eq_applyWin h3 h4]
        simp [hbc, applyWin, preUpdate]
    · rw [step_eq_other h1 h3]
      simp [hbc, preUpdate]

theorem step_uniqueWinIDs (s : AggState) (d : GameData) :
    (step s d).uniqueWinIDs =
      if isWinCounted s d ∧ d.winID ≠ "" then insertSet s.uniqueWinIDs d.winID
      else s.uniqueWinIDs := by
  by_cases h1 : isBetEvent d
  · have hwc : ¬ isWinCounted s d := fun hc => bet_not_win h1 hc.1
    by_cases h2 : isDupBet s d
    · rw [step_eq_dupBet h1 h2]
      simp [hwc, preUpdate]
    · rw [step_eq_applyBet h1 h2]
      simp [hwc, applyBet, preUpdate]
  · by_cases h3 : isWinEvent d
    · by_cases h4 : isDupWin s d
      · rw [step_eq_dupWin h3 h4]
        simp [isWinCounted, h4, preUpdate]
      · rw [step_eq_applyWin h3 h4]
        by_cases h5 : d.winID = ""
        · simp [isWinCounted, h5, applyWin, preUpdate]
        · simp [isWinCounted, h3, h4, h5, applyWin, preUpdate]
    · have hwc : ¬ isWinCounted s d := fun hc => h3 hc.1
      rw [step_eq_other h1 h3]
      simp [hwc, preUpdate]

theorem step_minTime (s : AggState) (d : GameData) :
    (step s d).minTime =
      if s.minTime < 0 ∨ d.ts < s.minTime then d.ts else s.minTime := by
  by_cases h1 : isBetEvent d
  · by_cases h2 : isDupBet s d
    · rw [step_eq_dupBet h1 h2]; rfl
    · rw [step_eq_applyBet h1 h2]; rfl
  · by_cases h3 : isWinEvent d
    · by_cases h4 : isDupWin s d
      · rw [step_eq_dupWin h3 h4]; rfl
      · rw [step_eq_applyWin h3 h4]; rfl
    · rw [step_eq_other h1 h3]; rfl

theorem step_maxTime (s : AggState) (d : GameData) :
    (step s d).maxTime = if d.ts > s.maxTime then d.ts else s.maxTime := by
  by_cases h1 : isBetEvent d
  · by_cases h2 : isDupBet s d
    · rw [step_eq_dupBet h1 h2]; rfl
    · rw [step_eq_applyBet h1 h2]; rfl
  · by_cases h3 : isWinEvent d
    · by_cases h4 : isDupWin s d
      · rw [step_eq_dupWin h3 h4]; rfl
      · rw [step_eq_applyWin h3 h4]; rfl
    · rw [step_eq_other h1 h3]; rfl

theorem step_uniquePlayers (s : AggState) (d : GameData) :
    (step s d).uniquePlayers = insertSet s.uniquePlayers d.playerID := by
  by_cases h1 : isBetEvent d
  · by_cases h2 : isDupBet s d
    · rw [step_eq_dupBet h1 h2]; rfl
    · rw [step_eq_applyBet h1 h2]; rfl
  · by_cases h3 : isWinEvent d
    · by_cases h4 : isDupWin s d
      · rw [step_eq_dupWin h3 h4]; rfl
      · rw [step_eq_applyWin h3 h4]; rfl
    · rw [step_eq_other h1 h3]; rfl

theorem step_uniqueGames (s : AggState) (d : GameData) :
    (step s d).uniqueGames = insertSet s.uniqueGames d.gameID := by
  by_cases h1 : isBetEvent d
  · by_cases h2 : isDupBet s d
    · rw [step_eq_dupBet h1 h2]; rfl
    · rw [step_eq_applyBet h1 h2]; rfl
  · by_cases h3 : isWinEvent d
    · by_cases h4 : isDupWin s d
      · rw [step_eq_dupWin h3 h4]; rfl
      · rw [step_eq_applyWin h3 h4]; rfl
    · rw [step_eq_other h1 h3]; rfl

theorem containsK_setA {κ α : Type} [DecidableEq κ]
    (m : List (κ × α)) (k k' : κ) (v : α) :
    containsK (setA m k v) k' = (containsK m k' || decide (k = k')) := by
  induction m with
  | nil => simp [setA, containsK]
  | cons hd tl ih =>
    obtain ⟨k'', v''⟩ := hd
    by_cases h : k'' = k
    · subst h
      by_cases h2 : k'' = k' <;> simp [setA, containsK, h2]
    · simp [setA, containsK, h, ih, Bool.or_assoc]

theorem step_playerStats_lookup (s : AggState) (d : GameData) (k : String) :
    lookupD (step s d).playerStats k {} =
      if isBetCounted s d ∧ d.playerID = k then
        betUpdateP (lookupD s.playerStats k {}) d
      else if isWinCounted s d ∧ d.playerID = k then
        winUpdateP (lookupD s.playerStats k {}) d
      else lookupD s.playerStats k {} := by
  by_cases h1 : isBetEvent d
  · have hw : ¬ isWinEvent d := bet_not_win h1
    have hwc : ¬ isWinCounted s d := fun hc => hw hc.1
    by_cases h2 : isDupBet s d
    · rw [step_eq_dupBet h1 h2]
      simp [isBetCounted, h2, hwc, preUpdate]
    · have hbc : isBetCounted s d := ⟨h1, h2⟩
      rw [step_eq_applyBet h1 h2]
      show lookupD (applyBet (preUpdate s d) d).playerStats k {} = _
      by_cases h5 : d.playerID = k
      · subst h5
        simp only [applyBet, preUpdate, hbc, hwc, and_true, true_and, if_pos]
        rw [lookupD_setA_self]
      · have h5' : ¬ (isBetCounted s d ∧ d.playerID = k) := fun hc => h5 hc.2
        have h5'' : ¬ (isWinCounted s d ∧ d.playerID = k) := fun hc => h5 hc.2
        simp only [applyBet, preUpdate, h5', h5'', if_neg, if_false]
        rw [lookupD_setA_ne _ h5]
  · have hbc : ¬ isBetCounted s d := fun hc => h1 hc.1
    have hbc' : ¬ (isBetCounted s d ∧ d.playerID = k) := fun hc => hbc hc.1
    by_cases h3 : isWinEvent d
    · by_cases h4 : isDupWin s d
      · have hwc : ¬ isWinCounted s d := fun hc => hc.2 h4
        rw [step_eq_dupWin h3 h4]
        simp [hbc', hwc, preUpdate]
      · have hwc : isWinCounted s d := ⟨h3, h4⟩
        rw [step_eq_applyWin h3 h4]
        show lookupD (applyWin (preUpdate s d) d).playerStats k {} = _
        by_cases h5 : d.playerID = k
        · subst h5
          simp only [applyWin, preUpdate, hbc, hbc', hwc, and_true, if_neg, if_pos,
            not_false_eq_true, true_and, if_false]
          rw [lookupD_setA_self]
        · have h5'' : ¬ (isWinCounted s d ∧ d.playerID = k) := fun hc => h5 hc.2
          simp only [applyWin, preUpdate, hbc', h5'', if_neg, if_false]
          rw [lookupD_setA_ne _ h5]
    · have hwc : ¬ isWinCounted s d := fun hc => h3 hc.1
      have hwc' : ¬ (isWinCounted s d ∧ d.playerID = k) := fun hc => hwc hc.1
      rw [step_eq_other h1 h3]
      simp [hbc', hwc', preUpdate]

theorem step_gameStats_lookup (s : AggState) (d : GameData) (k : String) :
    lookupD (step s d).gameStats k {} =
      if isBetCounted s d ∧ d.gameID = k then
        betUpdateG (lookupD s.gameStats k {}) d
      else if isWinCounted s d ∧ d.gameID = k then
        winUpdateG (lookupD s.gameStats k {}) d
      else lookupD s.gameStats k {} := by
  by_cases h1 : isBetEvent d
  · have hw : ¬ isWinEvent d := bet_not_win h1
    have hwc : ¬ isWinCounted s d := fun hc => hw hc.1
    by_cases h2 : isDupBet s d
    · rw [step_eq_dupBet h1 h2]
      simp [isBetCounted, h2, hwc, preUpdate]
    · have hbc : isBetCounted s d := ⟨h1, h2⟩
      rw [step_eq_applyBet h1 h2]
      show lookupD (applyBet (preUpdate s d) d).gameStats k {} = _
      by_cases h5 : d.gameID = k
      · subst h5
        simp only [applyBet, preUpdate, hbc, hwc, and_true, true_and, if_pos]
        rw [lookupD_setA_self]
      · have h5' : ¬ (isBetCounted s d ∧ d.gameID = k) := fun hc => h5 hc.2
        have h5'' : ¬ (isWinCounted s d ∧ d.gameID = k) := fun hc => h5 hc.2
        simp only [applyBet, preUpdate, h5', h5'', if_neg, if_false]
        rw [lookupD_setA_ne _ h5]
  · have hbc : ¬ isBetCounted s d := fun hc => h1 hc.1
    have hbc' : ¬ (isBetCounted s d ∧ d.gameID = k) := fun hc => hbc hc.1
    by_cases h3 : isWinEvent d
    · by_cases h4 : isDupWin s d
      · have hwc : ¬ isWinCounted s d := fun hc => hc.2 h4
        rw [step_eq_dupWin h3 h4]
        simp [hbc', hwc, preUpdate]
      · have hwc : isWinCounted s d := ⟨h3, h4⟩
        rw [step_eq_applyWin h3 h4]
        show lookupD (applyWin (preUpdate s d) d).gameStats k {} = _
        by_cases h5 : d.gameID = k
        · subst h5
          simp only [applyWin, preUpdate, hbc, hbc', hwc, and_true, if_neg, if_pos,
            not_false_eq_true, true_and, if_false]
          rw [lookupD_setA_self]
        · have h5'' : ¬ (isWinCounted s d ∧ d.gameID = k) := fun hc => h5 hc.2
          simp only [applyWin, preUpdate, hbc', h5'', if_neg, if_false]
          rw [lookupD_setA_ne _ h5]
    · have hwc : ¬ isWinCounted s d := fun hc => h3 hc.1
      have hwc' : ¬ (isWinCounted s d ∧ d.gameID = k) := fun hc => hwc hc.1
      rw [step_eq_other h1 h3]
      simp [hbc', hwc', preUpdate]

theorem step_playerStats_mem {s : AggState} {d : GameData} {x : String × PlayerStat}
    (hx : x ∈ (step s d).playerStats) :
    x ∈ s.playerStats ∨
      (isBetCounted s d ∧
        x = (d.playerID, betUpdateP (lookupD s.playerStats d.playerID {}) d)) ∨
      (isWinCounted s d ∧
        x = (d.playerID, winUpdateP (lookupD s.playerStats d.playerID {}) d)) := by
  by_cases h1 : isBetEvent d
  · by_cases h2 : isDupBet s d
    · rw [step_eq_dupBet h1 h2] at hx
      exact Or.inl hx
    · rw [step_eq_applyBet h1 h2] at hx
      have hx' : x ∈ setA s.playerStats d.playerID
          (betUpdateP (lookupD s.playerStats d.playerID {}) d) := hx
      rcases mem_setA hx' with h | h
      · exact Or.inr (Or.inl ⟨⟨h1, h2⟩, h⟩)
      · exact Or.inl h
  · by_cases h3 : isWinEvent d
    · by_cases h4 : isDupWin s d
      · rw [step_eq_dupWin h3 h4] at hx
        exact Or.inl hx
      · rw [step_eq_applyWin h3 h4] at hx
        have hx' : x ∈ setA s.playerStats d.playerID
            (winUpdateP (lookupD s.playerStats d.playerID {}) d) := hx
        rcases mem_setA hx' with h | h
        · exact Or.inr (Or.inr ⟨⟨h3, h4⟩, h⟩)
        · exact Or.inl h
    · rw [step_eq_other h1 h3] at hx
      exact Or.inl hx

theorem step_gameStats_mem {s : AggState} {d : GameData} {x : String × GameStat}
    (hx : x ∈ (step s d).gameStats) :
    x ∈ s.gameStats ∨
      (isBetCounted s d ∧
        x = (d.gameID, betUpdateG (lookupD s.gameStats d.gameID {}) d)) ∨
      (isWinCounted s d ∧
        x = (d.gameID, winUpdateG (lookupD s.gameStats d.gameID {}) d)) := by
  by_cases h1 : isBetEvent d
  · by_cases h2 : isDupBet s d
    · rw [step_eq_dupBet h1 h2] at hx
      exact Or.inl hx
    · rw [step_eq_applyBet h1 h2] at hx
      have hx' : x ∈ setA s.gameStats d.gameID
          (betUpdateG (lookupD s.gameStats d.gameID {}) d) := hx
      rcases mem_setA hx' with h | h
      · exact Or.inr (Or.inl ⟨⟨h1, h2⟩, h⟩)
      · exact Or.inl h
  · by_cases h3 : isWinEvent d
    · by_cases h4 : isDupWin s d
      · rw [step_eq_dupWin h3 h4] at hx
        exact Or.inl hx
      · rw [step_eq_applyWin h3 h4] at hx
        have hx' : x ∈ setA s.gameStats d.gameID
            (winUpdateG (lookupD s.gameStats d.gameID {}) d) := hx
        rcases mem_setA hx' with h | h
        · exact Or.inr (Or.inr ⟨⟨h3, h4⟩, h⟩)
        · exact Or.inl h
    · rw [step_eq_other h1 h3] at hx
      exact Or.inl hx

theorem step_playerStats_containsK (s : AggState) (d : GameData) (k : String) :
    containsK (step s d).playerStats k =
      (containsK s.playerStats k ||
        (decide (isBetCounted s d ∨ isWinCounted s d) && decide (d.playerID = k))) := by
  by_cases h1 : isBetEvent d
  · have hw : ¬ isWinEvent d := bet_not_win h1
    have hwc : ¬ isWinCounted s d := fun hc => hw hc.1
    by_cases h2 : isDupBet s d
    · have hbc : ¬ isBetCounted s d := fun hc => hc.2 h2
      rw [step_eq_dupBet h1 h2]
      simp [hbc, hwc, preUpdate]
    · have hbc : isBetCounted s d := ⟨h1, h2⟩
      rw [step_eq_applyBet h1 h2]
      show containsK (applyBet (preUpdate s d) d).playerStats k = _
      simp only [applyBet, preUpdate]
      rw [containsK_setA]
      simp [hbc]
  · have hbc : ¬ isBetCounted s d := fun hc => h1 hc.1
    by_cases h3 : isWinEvent d
    · by_cases h4 : isDupWin s d
      · have hwc : ¬ isWinCounted s d := fun hc => hc.2 h4
        rw [step_eq_dupWin h3 h4]
        simp [hbc, hwc, preUpdate]
      · have hwc : isWinCounted s d := ⟨h3, h4⟩
        rw [step_eq_applyWin h3 h4]
        show containsK (applyWin (preUpdate s d) d).playerStats k = _
        simp only [applyWin, preUpdate]
        rw [containsK_setA]
        simp [hwc]
    · have hwc : ¬ isWinCounted s d := fun hc => h3 hc.1
      rw [step_eq_other h1 h3]
      simp [hbc, hwc, preUpdate]

theorem lookupT_preUpdate (s : AggState) (d : GameData) (h : Int) :
    lookupD (preUpdate s d).timeStats h { hour := h } =
      lookupD s.timeStats h { hour := h } := by
  show lookupD
      (if containsK s.timeStats (hourOf (truncToSec d.ts)) then s.timeStats
       else setA s.timeStats (hourOf (truncToSec d.ts))
              { hour := hourOf (truncToSec d.ts) }) h { hour := h } = _
  by_cases hc : containsK s.timeStats (hourOf (truncToSec d.ts)) = true
  · rw [if_pos hc]
  · rw [if_neg (by simpa using hc)]
    by_cases he : hourOf (truncToSec d.ts) = h
    · subst he
      rw [lookupD_setA_self, lookupD_eq_of_not_contains (by simpa using hc)]
    · rw [lookupD_setA_ne _ he]

/-! ### Fold characterizations -/

theorem foldEvents_nil (s : AggState) : foldEvents s [] = s := rfl

theorem foldEvents_cons (s : AggState) (d : GameData) (evs : List GameData) :
    foldEvents s (d :: evs) = foldEvents (step s d) evs := rfl

theorem foldEvents_append (s : AggState) (l1 l2 : List GameData) :
    foldEvents s (l1 ++ l2) = foldEvents (foldEvents s l1) l2 :=
  List.foldl_append ..

theorem foldEvents_totalBets (evs : List GameData) :
    ∀ s : AggState, (foldEvents s evs).totalBets =
      s.totalBets + ((acceptedBetList s evs).length : Int) := by
  induction evs with
  | nil => intro s; simp [foldEvents, acceptedBetList]
  | cons d rest ih =>
    intro s
    rw [foldEvents_cons, ih (step s d), step_totalBets]
    by_cases h : isBetCounted s d
    · simp only [acceptedBetList, if_pos h, List.length_cons]
      push_cast
      ring
    · simp [acceptedBetList, h]

theorem foldEvents_totalBetAmount (evs : List GameData) :
    ∀ s : AggState, (foldEvents s evs).totalBetAmount =
      s.totalBetAmount + ((acceptedBetList s evs).map (fun d => d.bet)).sum := by
  induction evs with
  | nil => intro s; simp [foldEvents, acceptedBetList]
  | cons d rest ih =>
    intro s
    rw [foldEvents_cons, ih (step s d), step_totalBetAmount]
    by_cases h : isBetCounted s d
    · simp only [acceptedBetList, if_pos h, List.map_cons, List.sum_cons]
      ring
    · simp [acceptedBetList, h]

theorem foldEvents_totalWins (evs : List GameData) :
    ∀ s : AggState, (foldEvents s evs).totalWins =
      s.totalWins + ((acceptedWinList s evs).length : Int) := by
  induction evs with
  | nil => intro s; simp [foldEvents, acceptedWinList]
  | cons d rest ih =>
    intro s
    rw [foldEvents_cons, ih (step s d), step_totalWins]
    by_cases h : isWinCounted s d
    · simp only [acceptedWinList, if_pos h, List.length_cons]
      push_cast
      ring
    · simp [acceptedWinList, h]

theorem foldEvents_totalWinAmount (evs : List GameData) :
    ∀ s : AggState, (foldEvents s evs).totalWinAmount =
      s.totalWinAmount + ((acceptedWinList s evs).map (fun d => d.win)).sum := by
  induction evs with
  | nil => intro s; simp [foldEvents, acceptedWinList]
  | cons d rest ih =>
    intro s
    rw [foldEvents_cons, ih (step s d), step_totalWinAmount]
    by_cases h : isWinCounted s d
    · simp only [acceptedWinList, if_pos h, List.map_cons, List.sum_cons]
      ring
    · simp [acceptedWinList, h]

theorem mem_acceptedBetList {evs : List GameData} :
    ∀ {s : AggState} {d : GameData}, d ∈ acceptedBetList s evs → isBetEvent d := by
  induction evs with
  | nil => intro s d h; simp [acceptedBetList] at h
  | cons e rest ih =>
    intro s d h
    by_cases hc : isBetCounted s e
    · rw [acceptedBetList, if_pos hc] at h
      rcases List.mem_cons.mp h with h1 | h1
      · exact h1 ▸ hc.1
      · exact ih h1
    · rw [acceptedBetList, if_neg hc] at h
      exact ih h

theorem mem_acceptedWinList {evs : List GameData} :
    ∀ {s : AggState} {d : GameData}, d ∈ acceptedWinList s evs → isWinEvent d := by
  induction evs with
  | nil => intro s d h; simp [acceptedWinList] at h
  | cons e rest ih =>
    intro s d h
    by_cases hc : isWinCounted s e
    · rw [acceptedWinList, if_pos hc] at h
      rcases List.mem_cons.mp h with h1 | h1
      · exact h1 ▸ hc.1
      · exact ih h1
    · rw [acceptedWinList, if_neg hc] at h
      exact ih h

theorem foldEvents_player_totalBets (evs : List GameData) :
    ∀ (s : AggState) (k : String),
      (lookupD (foldEvents s evs).playerStats k {}).totalBets =
        (lookupD s.playerStats k {}).totalBets +
          (((acceptedBetList s evs).filter (fun d => d.playerID == k)).length : Int) := by
  induction evs with
  | nil => intro s k; simp [foldEvents, acceptedBetList]
  | cons d rest ih =>
    intro s k
    rw [foldEvents_cons, ih (step s d) k, step_playerStats_lookup]
    by_cases hb : isBetCounted s d
    · rw [acceptedBetList, if_pos hb]
      by_cases hk : d.playerID = k
      · rw [if_pos (show isBetCounted s d ∧ d.playerID = k from ⟨hb, hk⟩)]
        have hbk : (d.playerID == k) = true := by simpa using hk
        simp only [betUpdateP, List.filter_cons, hbk, if_pos, List.length_cons]
        push_cast
        ring
      · rw [if_neg (show ¬ (isBetCounted s d ∧ d.playerID = k) from fun hc => hk hc.2),
          if_neg (show ¬ (isWinCounted s d ∧ d.playerID = k) from fun hc => hk hc.2)]
        have hbk : (d.playerID == k) = false := by simpa using hk
        simp [List.filter_cons, hbk]
    · rw [acceptedBetList, if_neg hb,
        if_neg (show ¬ (isBetCounted s d ∧ d.playerID = k) from fun hc => hb hc.1)]
      by_cases hw : isWinCounted s d ∧ d.playerID = k
      · rw [if_pos hw]
        simp [winUpdateP]
      · rw [if_neg hw]

theorem foldEvents_player_lastBalance (evs : List GameData) :
    ∀ (s : AggState) (k : String),
      (lookupD (foldEvents s evs).playerStats k {}).lastBalance =
        ((countedEvents s evs).filter (fun d => d.playerID == k)).foldl
          (fun _ d => d.balance) ((lookupD s.playerStats k {}).lastBalance) := by
  induction evs with
  | nil => intro s k; simp [foldEvents, countedEvents]
  | cons d rest ih =>
    intro s k
    rw [foldEvents_cons, ih (step s d) k, step_playerStats_lookup]
    by_cases hc : isBetCounted s d ∨ isWinCounted s d
    · rw [countedEvents, if_pos hc]
      by_cases hk : d.playerID = k
      · have hbk : (d.playerID == k) = true := by simpa using hk
        rw [List.filter_cons_of_pos (by simpa using hbk), List.foldl_cons]
        rcases hc with hb | hw
        · rw [if_pos (show isBetCounted s d ∧ d.playerID = k from ⟨hb, hk⟩)]
          simp [betUpdateP]
        · have hbc : ¬ isBetCounted s d := fun hbb => bet_not_win hbb.1 hw.1
          rw [if_neg (show ¬ (isBetCounted s d ∧ d.playerID = k) from
              fun hcc => hbc hcc.1),
            if_pos (show isWinCounted s d ∧ d.playerID = k from ⟨hw, hk⟩)]
          simp [winUpdateP]
      · have hbk : (d.playerID == k) = false := by simpa using hk
        rw [List.filter_cons_of_neg (by simpa using hbk),
          if_neg (show ¬ (isBetCounted s d ∧ d.playerID = k) from fun hcc => hk hcc.2),
          if_neg (show ¬ (isWinCounted s d ∧ d.playerID = k) from fun hcc => hk hcc.2)]
    · rw [countedEvents, if_neg hc,
        if_neg (show ¬ (isBetCounted s d ∧ d.playerID = k) from
          fun hcc => hc (Or.inl hcc.1)),
        if_neg (show ¬ (isWinCounted s d ∧ d.playerID = k) from
          fun hcc => hc (Or.inr hcc.1))]

theorem foldEvents_player_containsK (evs : List GameData) :
    ∀ (s : AggState) (k : String),
      containsK (foldEvents s evs).playerStats k =
        (containsK s.playerStats k ||
          (countedEvents s evs).any (fun d => d.playerID == k)) := by
  induction evs with
  | nil => intro s k; simp [foldEvents, countedEvents]
  | cons d rest ih =>
    intro s k
    rw [foldEvents_cons, ih (step s d) k, step_playerStats_containsK]
    by_cases hc : isBetCounted s d ∨ isWinCounted s d
    · simp only [countedEvents, if_pos hc, List.any_cons]
      have : decide (isBetCounted s d ∨ isWinCounted s d) = true := by
        simpa using hc
      rw [this]
      by_cases hk : d.playerID = k
      · simp [hk]
      · have hbk : (d.playerID == k) = false := by
          simp [beq_eq_false_iff_ne, hk]
        simp [hk, hbk, Bool.or_assoc]
    · simp only [countedEvents, if_neg hc]
      have : decide (isBetCounted s d ∨ isWinCounted s d) = false := by
        simpa using hc
      rw [this]
      simp

/-! ### A state invariant maintained by the loop

`rtp` fields stay at the zero value during the fold (they are only computed
at finalization); the embedded `PlayerID`/`GameID` fields are assigned
exactly in the accepted-Bet branch, so they name the map key precisely when
the record has counted at least one bet; map keys stay distinct. -/

def PlayerRecInv (k : String) (p : PlayerStat) : Prop :=
  p.rtp = 0 ∧ 0 ≤ p.totalBets ∧
    p.playerID = (if 0 < p.totalBets then k else "")

def GameRecInv (k : String) (g : GameStat) : Prop :=
  g.rtp = 0 ∧ 0 ≤ g.totalBets ∧
    g.gameID = (if 0 < g.totalBets then k else "")

def StateInv (s : AggState) : Prop :=
  ((s.playerStats.map Prod.fst).Nodup) ∧
  ((s.gameStats.map Prod.fst).Nodup) ∧
  (∀ kp ∈ s.playerStats, PlayerRecInv kp.1 kp.2) ∧
  (∀ kg ∈ s.gameStats, GameRecInv kg.1 kg.2)

theorem stateInv_init : StateInv initState := by
  refine ⟨?_, ?_, ?_, ?_⟩ <;> simp [initState]

theorem playerRecInv_default (k : String) : PlayerRecInv k {} := by
  refine ⟨rfl, le_refl 0, ?_⟩
  simp

theorem gameRecInv_default (k : String) : GameRecInv k {} := by
  refine ⟨rfl, le_refl 0, ?_⟩
  simp

theorem playerRecInv_lookup {s : AggState} (hinv : StateInv s) (k : String) :
    PlayerRecInv k (lookupD s.playerStats k {}) := by
  rcases lookupD_mem s.playerStats k {} with h | h
  · rw [h]; exact playerRecInv_default k
  · exact hinv.2.2.1 _ h

theorem gameRecInv_lookup {s : AggState} (hinv : StateInv s) (k : String) :
    GameRecInv k (lookupD s.gameStats k {}) := by
  rcases lookupD_mem s.gameStats k {} with h | h
  · rw [h]; exact gameRecInv_default k
  · exact hinv.2.2.2 _ h

theorem playerRecInv_betUpdate {p : PlayerStat} {d : GameData}
    (h : PlayerRecInv d.playerID p) : PlayerRecInv d.playerID (betUpdateP p d) := by
  obtain ⟨h1, h2, _⟩ := h
  refine ⟨h1, by simpa [betUpdateP] using by omega, ?_⟩
  have : 0 < p.totalBets + 1 := by omega
  simp [betUpdateP, this]

theorem playerRecInv_winUpdate {p : PlayerStat} {d : GameData} (k : String)
    (h : PlayerRecInv k p) : PlayerRecInv k (winUpdateP p d) := by
  obtain ⟨h1, h2, h3⟩ := h
  exact ⟨h1, h2, h3⟩

theorem gameRecInv_betUpdate {g : GameStat} {d : GameData}
    (h : GameRecInv d.gameID g) : GameRecInv d.gameID (betUpdateG g d) := by
  obtain ⟨h1, h2, _⟩ := h
  refine ⟨h1, by simpa [betUpdateG] using by omega, ?_⟩
  have : 0 < g.totalBets + 1 := by omega
  simp [betUpdateG, this]

theorem gameRecInv_winUpdate {g : GameStat} {d : GameData} (k : String)
    (h : GameRecInv k g) : GameRecInv k (winUpdateG g d) := by
  obtain ⟨h1, h2, h3⟩ := h
  exact ⟨h1, h2, h3⟩

theorem step_playerStats_cases (s : AggState) (d : GameData) :
    (step s d).playerStats = s.playerStats ∨
      ∃ v, (step s d).playerStats = setA s.playerStats d.playerID v := by
  by_cases h1 : isBetEvent d
  · by_cases h2 : isDupBet s d
    · rw [step_eq_dupBet h1 h2]; exact Or.inl rfl
    · rw [step_eq_applyBet h1 h2]
      exact Or.inr ⟨_, rfl⟩
  · by_cases h3 : isWinEvent d
    · by_cases h4 : isDupWin s d
      · rw [step_eq_dupWin h3 h4]; exact Or.inl rfl
      · rw [step_eq_applyWin h3 h4]
        exact Or.inr ⟨_, rfl⟩
    · rw [step_eq_other h1 h3]; exact Or.inl rfl

theorem step_gameStats_cases (s : AggState) (d : GameData) :
    (step s d).gameStats = s.gameStats ∨
      ∃ v, (step s d).gameStats = setA s.gameStats d.gameID v := by
  by_cases h1 : isBetEvent d
  · by_cases h2 : isDupBet s d
    · rw [step_eq_dupBet h1 h2]; exact Or.inl rfl
    · rw [step_eq_applyBet h1 h2]
      exact Or.inr ⟨_, rfl⟩
  · by_cases h3 : isWinEvent d
    · by_cases h4 : isDupWin s d
      · rw [step_eq_dupWin h3 h4]; exact Or.inl rfl
      · rw [step_eq_applyWin h3 h4]
        exact Or.inr ⟨_, rfl⟩
    · rw [step_eq_other h1 h3]; exact Or.inl rfl

theorem stateInv_step {s : AggState} (hinv : StateInv s) (d : GameData) :
    StateInv (step s d) := by
  refine ⟨?_, ?_, ?_, ?_⟩
  · rcases step_playerStats_cases s d with h | ⟨v, h⟩
    · rw [h]; exact hinv.1
    · rw [h]; exact keys_nodup_setA hinv.1 _ _
  · rcases step_gameStats_cases s d with h | ⟨v, h⟩
    · rw [h]; exact hinv.2.1
    · rw [h]; exact keys_nodup_setA hinv.2.1 _ _
  · intro kp hkp
    rcases step_playerStats_mem hkp with h | ⟨_, h⟩ | ⟨_, h⟩
    · exact hinv.2.2.1 _ h
    · rw [h]
      exact playerRecInv_betUpdate (playerRecInv_lookup hinv d.playerID)
    · rw [h]
      exact playerRecInv_winUpdate _ (playerRecInv_lookup hinv d.playerID)
  · intro kg hkg
    rcases step_gameStats_mem hkg with h | ⟨_, h⟩ | ⟨_, h⟩
    · exact hinv.2.2.2 _ h
    · rw [h]
      exact gameRecInv_betUpdate (gameRecInv_lookup hinv d.gameID)
    · rw [h]
      exact gameRecInv_winUpdate _ (gameRecInv_lookup hinv d.gameID)

theorem stateInv_fold (evs : List GameData) :
    ∀ s : AggState, StateInv s → StateInv (foldEvents s evs) := by
  induction evs with
  | nil => intro s h; exact h
  | cons d rest ih =>
    intro s h
    rw [foldEvents_cons]
    exact ih _ (stateInv_step h d)

theorem stateInv_foldAgg (evs : List GameData) : StateInv (foldAgg evs) :=
  stateInv_fold evs initState stateInv_init

/-! ### Finalization projections -/

theorem finalizePlayer_totalBetAmount (p : PlayerStat) :
    (finalizePlayer p).totalBetAmount = p.totalBetAmount := by
  simp only [finalizePlayer]
  split_ifs <;> rfl

theorem finalizePlayer_totalWinAmount (p : PlayerStat) :
    (finalizePlayer p).totalWinAmount = p.totalWinAmount := by
  simp only [finalizePlayer]
  split_ifs <;> rfl

theorem finalizePlayer_totalBets (p : PlayerStat) :
    (finalizePlayer p).totalBets = p.totalBets := by
  simp only [finalizePlayer]
  split_ifs <;> rfl

theorem finalizePlayer_totalWins (p : PlayerStat) :
    (finalizePlayer p).totalWins = p.totalWins := by
  simp only [finalizePlayer]
  split_ifs <;> rfl

theorem finalizePlayer_lastBalance (p : PlayerStat) :
    (finalizePlayer p).lastBalance = p.lastBalance := by
  simp only [finalizePlayer]
  split_ifs <;> rfl

theorem finalizePlayer_playerID (p : PlayerStat) :
    (finalizePlayer p).playerID = p.playerID := by
  simp only [finalizePlayer]
  split_ifs <;> rfl

theorem finalizePlayer_netResult (p : PlayerStat) :
    (finalizePlayer p).netResult = p.totalWinAmount - p.totalBetAmount := by
  simp only [finalizePlayer]
  split_ifs <;> rfl

theorem finalizePlayer_rtp (p : PlayerStat) :
    (finalizePlayer p).rtp =
      if 0 < p.totalBetAmount then
        (p.totalWinAmount : Rat) / (p.totalBetAmount : Rat) * 100
      else p.rtp := by
  simp only [finalizePlayer]
  split_ifs <;> rfl

theorem finalizePlayer_topBets (p : PlayerStat) :
    (finalizePlayer p).topBets =
      (let tb := p.topBets.mergeSort (fun a b => decide (b.amount ≤ a.amount))
       if 5 < tb.length then tb.take 5 else tb) := by
  simp only [finalizePlayer]
  split_ifs <;> rfl

theorem finalizePlayer_topWins (p : PlayerStat) :
    (finalizePlayer p).topWins =
      (let tw := p.topWins.mergeSort (fun a b => decide (b.amount ≤ a.amount))
       if 5 < tw.length then tw.take 5 else tw) := by
  simp only [finalizePlayer]
  split_ifs <;> rfl

theorem finalizeGame_players (evs : List GameData) (g : String) (st : GameStat) :
    (finalizeGame evs g st).players = ((playersInGame evs g).length : Int) := rfl

theorem finalizeGame_rtp (evs : List GameData) (g : String) (st : GameStat) :
    (finalizeGame evs g st).rtp =
      if 0 < st.totalBetAmount then
        (st.totalWinAmount : Rat) / (st.totalBetAmount : Rat) * 100
      else st.rtp := by
  simp only [finalizeGame]
  split_ifs <;> rfl

theorem finalizeGame_totalBetAmount (evs : List GameData) (g : String) (st : GameStat) :
    (finalizeGame evs g st).totalBetAmount = st.totalBetAmount := by
  simp only [finalizeGame]
  split_ifs <;> rfl

theorem finalizeGame_totalWinAmount (evs : List GameData) (g : String) (st : GameStat) :
    (finalizeGame evs g st).totalWinAmount = st.totalWinAmount := by
  simp only [finalizeGame]
  split_ifs <;> rfl

theorem report_playerStats_mem {evs : List GameData} {k : String} {p : PlayerStat} :
    (k, p) ∈ (generateReport evs).playerStats ↔
      ∃ p0, (k, p0) ∈ (foldAgg evs).playerStats ∧ p = finalizePlayer p0 := by
  show (k, p) ∈ (foldAgg evs).playerStats.map (fun kp => (kp.1, finalizePlayer kp.2)) ↔ _
  rw [List.mem_map]
  constructor
  · rintro ⟨⟨k0, p0⟩, hm, he⟩
    have hk : k0 = k := congrArg Prod.fst he
    have hp : finalizePlayer p0 = p := congrArg Prod.snd he
    subst hk
    exact ⟨p0, hm, hp.symm⟩
  · rintro ⟨p0, hm, he⟩
    exact ⟨(k, p0), hm, by rw [he]⟩

theorem report_gameStats_mem {evs : List GameData} {k : String} {g : GameStat} :
    (k, g) ∈ (generateReport evs).gameStats ↔
      ∃ g0, (k, g0) ∈ (foldAgg evs).gameStats ∧ g = finalizeGame evs k g0 := by
  show (k, g) ∈ (foldAgg evs).gameStats.map (fun kg => (kg.1, finalizeGame evs kg.1 kg.2)) ↔ _
  rw [List.mem_map]
  constructor
  · rintro ⟨⟨k0, g0⟩, hm, he⟩
    have hk : k0 = k := congrArg Prod.fst he
    have hg : finalizeGame evs k0 g0 = g := congrArg Prod.snd he
    subst hk
    exact ⟨g0, hm, hg.symm⟩
  · rintro ⟨g0, hm, he⟩
    exact ⟨(k, g0), hm, by rw [he]⟩

/-! ### Report projections (definitional) -/

theorem report_totalBets (evs : List GameData) :
    (generateReport evs).summary.totalBets = (foldAgg evs).totalBets := rfl

theorem report_totalWins (evs : List GameData) :
    (generateReport evs).summary.totalWins = (foldAgg evs).totalWins := rfl

theorem report_totalBetAmount (evs : List GameData) :
    (generateReport evs).summary.totalBetAmount = (foldAgg evs).totalBetAmount := rfl

theorem report_totalWinAmount (evs : List GameData) :
    (generateReport evs).summary.totalWinAmount = (foldAgg evs).totalWinAmount := rfl

theorem report_rtp (evs : List GameData) :
    (generateReport evs).summary.rtp =
      if 0 < (foldAgg evs).totalBetAmount then
        ((foldAgg evs).totalWinAmount : Rat) / ((foldAgg evs).totalBetAmount : Rat) * 100
      else 0 := rfl

theorem report_uniquePlayers (evs : List GameData) :
    (generateReport evs).summary.uniquePlayers =
      ((foldAgg evs).uniquePlayers.length : Int) := rfl

theorem report_uniqueGames (evs : List GameData) :
    (generateReport evs).summary.uniqueGames =
      ((foldAgg evs).uniqueGames.length : Int) := rfl

theorem report_timeSpan (evs : List GameData) :
    (generateReport evs).summary.timeSpan =
      if 0 ≤ (foldAgg evs).minTime ∧ (foldAgg evs).minTime < (foldAgg evs).maxTime
      then timeSpanString (foldAgg evs).minTime (foldAgg evs).maxTime
      else "" := rfl

theorem report_suspiciousEvents (evs : List GameData) :
    (generateReport evs).suspiciousEvents =
      ((foldAgg evs).playerStats.map (fun kp => (kp.1, finalizePlayer kp.2))).filterMap
        (fun kp => screenPlayer kp.1 kp.2) := rfl

/-! ### Concrete example events for witnesses and counterexamples -/

/-- A positive `SendBet` event. -/
def mkBet (pid gid bid : String) (amt bal : Int) (t : Rat) : GameData :=
  { message := "SendBet", playerID := pid, gameID := gid, roundID := "r",
    ts := t, betID := bid, winID := "", bet := amt, win := 0, balance := bal }

/-- A positive `SendWin` event. -/
def mkWin (pid gid wid : String) (amt bal : Int) (t : Rat) : GameData :=
  { message := "SendWin", playerID := pid, gameID := gid, roundID := "r",
    ts := t, betID := "", winID := wid, bet := 0, win := amt, balance := bal }

/-- An event of neither Bet nor Win kind (inert for counting). -/
def mkOther (pid gid : String) (t : Rat) : GameData :=
  { message := "RoundInfo", playerID := pid, gameID := gid, roundID := "r",
    ts := t, betID := "", winID := "", bet := 0, win := 0, balance := 0 }

/-! ### Per-game bet count -/

theorem foldEvents_game_totalBets (evs : List GameData) :
    ∀ (s : AggState) (k : String),
      (lookupD (foldEvents s evs).gameStats k {}).totalBets =
        (lookupD s.gameStats k {}).totalBets +
          (((acceptedBetList s evs).filter (fun d => d.gameID == k)).length : Int) := by
  induction evs with
  | nil => intro s k; simp [foldEvents, acceptedBetList]
  | cons d rest ih =>
    intro s k
    rw [foldEvents_cons, ih (step s d) k, step_gameStats_lookup]
    by_cases hb : isBetCounted s d
    · rw [acceptedBetList, if_pos hb]
      by_cases hk : d.gameID = k
      · rw [if_pos (show isBetCounted s d ∧ d.gameID = k from ⟨hb, hk⟩)]
        have hbk : (d.gameID == k) = true := by simpa using hk
        simp only [betUpdateG, List.filter_cons, hbk, if_pos, List.length_cons]
        push_cast
        ring
      · rw [if_neg (show ¬ (isBetCounted s d ∧ d.gameID = k) from fun hc => hk hc.2),
          if_neg (show ¬ (isWinCounted s d ∧ d.gameID = k) from fun hc => hk hc.2)]
        have hbk : (d.gameID == k) = false := by simpa using hk
        simp [List.filter_cons, hbk]
    · rw [acceptedBetList, if_neg hb,
        if_neg (show ¬ (isBetCounted s d ∧ d.gameID = k) from fun hc => hb hc.1)]
      by_cases hw : isWinCounted s d ∧ d.gameID = k
      · rw [if_pos hw]
        simp [winUpdateG]
      · rw [if_neg hw]

/-! ### Claim C4 -/

/-- C4: at every level (global summary, per-player, per-game), when
`totalBetAmount > 0` the reported RTP is `totalWinAmount / totalBetAmount *
100` (division on the already-summed integer totals), and when
`totalBetAmount = 0` the reported RTP is `0` — the zero value, not an
error. -/
theorem claim_C4 (evs : List GameData) :
    ((0 < (generateReport evs).summary.totalBetAmount →
        (generateReport evs).summary.rtp =
          ((generateReport evs).summary.totalWinAmount : Rat) /
            ((generateReport evs).summary.totalBetAmount : Rat) * 100) ∧
      ((generateReport evs).summary.totalBetAmount = 0 →
        (generateReport evs).summary.rtp = 0)) ∧
    (∀ k p, (k, p) ∈ (generateReport evs).playerStats →
      (0 < p.totalBetAmount →
        p.rtp = (p.totalWinAmount : Rat) / (p.totalBetAmount : Rat) * 100) ∧
      (p.totalBetAmount = 0 → p.rtp = 0)) ∧
    (∀ g st, (g, st) ∈ (generateReport evs).gameStats →
      (0 < st.totalBetAmount →
        st.rtp = (st.totalWinAmount : Rat) / (st.totalBetAmount : Rat) * 100) ∧
      (st.totalBetAmount = 0 → st.rtp = 0)) := by
  refine ⟨⟨?_, ?_⟩, ?_, ?_⟩
  · intro h
    rw [report_totalBetAmount] at h
    rw [report_rtp, report_totalWinAmount, report_totalBetAmount, if_pos h]
  · intro h
    rw [report_totalBetAmount] at h
    rw [report_rtp, if_neg (by rw [h]; exact lt_irrefl 0)]
  · intro k p hm
    obtain ⟨p0, hm0, hp⟩ := report_playerStats_mem.mp hm
    have hinv := (stateInv_foldAgg evs).2.2.1 _ hm0
    subst hp
    rw [finalizePlayer_totalBetAmount, finalizePlayer_totalWinAmount,
      finalizePlayer_rtp]
    constructor
    · intro h
      rw [if_pos h]
    · intro h
      rw [if_neg (by rw [h]; exact lt_irrefl 0)]
      exact hinv.1
  · intro g st hm
    obtain ⟨g0, hm0, hg⟩ := report_gameStats_mem.mp hm
    have hinv := (stateInv_foldAgg evs).2.2.2 _ hm0
    subst hg
    rw [finalizeGame_totalBetAmount, finalizeGame_totalWinAmount, finalizeGame_rtp]
    constructor
    · intro h
      rw [if_pos h]
    · intro h
      rw [if_neg (by rw [h]; exact lt_irrefl 0)]
      exact hinv.1

/-- Concrete stream: one accepted bet of 100 and one accepted win of 50 by
player `A` on game `G`. -/
def exBasic : List GameData :=
  [mkBet "A" "G" "b1" 100 900 10, mkWin "A" "G" "w1" 50 950 30]

unseal Rat.mul Rat.inv in
/-- Witness for C4 at the concrete stream `exBasic`, discharging the
membership and positivity hypotheses. -/
theorem claim_C4_witness :
    ((0:Int) < (generateReport exBasic).summary.totalBetAmount →
      (generateReport exBasic).summary.rtp =
        ((generateReport exBasic).summary.totalWinAmount : Rat) /
          ((generateReport exBasic).summary.totalBetAmount : Rat) * 100) ∧
    (generateReport exBasic).summary.rtp =
      ((generateReport exBasic).summary.totalWinAmount : Rat) /
        ((generateReport exBasic).summary.totalBetAmount : Rat) * 100 :=
  ⟨(claim_C4 exBasic).1.1, (claim_C4 exBasic).1.1 (by decide)⟩

/-! ### Claim C10 -/

theorem filter_length_pos_iff_any {α : Type} (l : List α) (pr : α → Bool) :
    0 < (l.filter pr).length ↔ l.any pr = true := by
  rw [List.length_pos]
  constructor
  · intro h
    rcases List.exists_mem_of_ne_nil _ h with ⟨a, ha⟩
    exact List.any_eq_true.mpr
      ⟨a, (List.mem_filter.mp ha).1, (List.mem_filter.mp ha).2⟩
  · intro h
    rcases List.any_eq_true.mp h with ⟨a, hal, hpa⟩
    intro hnil
    have : a ∈ l.filter pr := List.mem_filter.mpr ⟨hal, hpa⟩
    simp [hnil] at this

/-- C10: a player-map record carries the map key in its embedded `PlayerID`
field exactly when the player has at least one accepted Bet event; a player
whose counted events are all Wins keeps the empty string there.  The same
holds for the `GameID` field of game-map records, which only the Bet branch
assigns: a win-only player or game is keyed by its true identifier while its
record carries an empty identifier field. -/
theorem claim_C10 (evs : List GameData) :
    (∀ k p, (k, p) ∈ (generateReport evs).playerStats →
      p.playerID =
        (if (acceptedBetList initState evs).any (fun d => d.playerID == k) then k
         else "")) ∧
    (∀ g st, (g, st) ∈ (generateReport evs).gameStats →
      st.gameID =
        (if (acceptedBetList initState evs).any (fun d => d.gameID == g) then g
         else "")) := by
  constructor
  · intro k p hm
    obtain ⟨p0, hm0, hp⟩ := report_playerStats_mem.mp hm
    have hinv := (stateInv_foldAgg evs).2.2.1 _ hm0
    have hnd := (stateInv_foldAgg evs).1
    have hl := mem_of_nodup_lookupD hnd hm0 ({} : PlayerStat)
    have hcount := foldEvents_player_totalBets evs initState k
    rw [show foldEvents initState evs = foldAgg evs from rfl, hl] at hcount
    rw [show (lookupD initState.playerStats k {}).totalBets = 0 from rfl,
      zero_add] at hcount
    subst hp
    rw [finalizePlayer_playerID, hinv.2.2]
    by_cases hany :
        (acceptedBetList initState evs).any (fun d => d.playerID == k) = true
    · have hpos : 0 <
          ((acceptedBetList initState evs).filter (fun d => d.playerID == k)).length :=
        (filter_length_pos_iff_any _ _).mpr hany
      rw [if_pos hany, if_pos (by rw [hcount]; exact_mod_cast hpos)]
    · have hz :
          ((acceptedBetList initState evs).filter (fun d => d.playerID == k)).length = 0 := by
        by_contra hzz
        exact hany ((filter_length_pos_iff_any _ _).mp (Nat.pos_of_ne_zero hzz))
      rw [if_neg hany, if_neg (by rw [hcount, hz]; exact lt_irrefl 0)]
  · intro g st hm
    obtain ⟨g0, hm0, hg⟩ := report_gameStats_mem.mp hm
    have hinv := (stateInv_foldAgg evs).2.2.2 _ hm0
    have hnd := (stateInv_foldAgg evs).2.1
    have hl := mem_of_nodup_lookupD hnd hm0 ({} : GameStat)
    have hcount := foldEvents_game_totalBets evs initState g
    rw [show foldEvents initState evs = foldAgg evs from rfl, hl] at hcount
    rw [show (lookupD initState.gameStats g {}).totalBets = 0 from rfl,
      zero_add] at hcount
    subst hg
    rw [show (finalizeGame evs g g0).gameID = g0.gameID by
        simp only [finalizeGame]; split_ifs <;> rfl,
      hinv.2.2]
    by_cases hany :
        (acceptedBetList initState evs).any (fun d => d.gameID == g) = true
    · have hpos : 0 <
          ((acceptedBetList initState evs).filter (fun d => d.gameID == g)).length :=
        (filter_length_pos_iff_any _ _).mpr hany
      rw [if_pos hany, if_pos (by rw [hcount]; exact_mod_cast hpos)]
    · have hz :
          ((acceptedBetList initState evs).filter (fun d => d.gameID == g)).length = 0 := by
        by_contra hzz
        exact hany ((filter_length_pos_iff_any _ _).mp (Nat.pos_of_ne_zero hzz))
      rw [if_neg hany, if_neg (by rw [hcount, hz]; exact lt_irrefl 0)]

/-- Concrete stream: player `A` only wins (no bet) on game `G`. -/
def exWinOnly : List GameData := [mkWin "A" "G" "w1" 50 950 30]

unseal Rat.mul Rat.inv List.merge List.mergeSort in
/-- Witness for C10: on a win-only stream player `A`'s record carries an
empty `playerID` (and game `G` an empty `gameID`), while after an accepted
bet the fields carry the key. -/
theorem claim_C10_witness :
    ((lookupD (generateReport exWinOnly).playerStats "A" {}).playerID =
      (if (acceptedBetList initState exWinOnly).any (fun d => d.playerID == "A")
       then "A" else "")) ∧
    ((lookupD (generateReport exWinOnly).gameStats "G" {}).gameID =
      (if (acceptedBetList initState exWinOnly).any (fun d => d.gameID == "G")
       then "G" else "")) ∧
    ((lookupD (generateReport exBasic).playerStats "A" {}).playerID =
      (if (acceptedBetList initState exBasic).any (fun d => d.playerID == "A")
       then "A" else "")) :=
  ⟨(claim_C10 exWinOnly).1 "A" _ (by decide),
   (claim_C10 exWinOnly).2 "G" _ (by decide),
   (claim_C10 exBasic).1 "A" _ (by decide)⟩

/-! ### Claim C3 -/

/-- C3: the summary's `totalBetAmount` is the sum, each exactly once, of the
amounts of the accepted Bet events (kind `SendBet`, positive amount, not
judged duplicate at their point in the stream); symmetrically for
`totalWinAmount` over accepted Win events; and no event is both an accepted
Bet and an accepted Win.  The companion counts `totalBets`/`totalWins` are
the lengths of the same lists. -/
theorem claim_C3 (evs : List GameData) :
    (generateReport evs).summary.totalBetAmount =
      ((acceptedBetList initState evs).map (fun d => d.bet)).sum ∧
    (generateReport evs).summary.totalWinAmount =
      ((acceptedWinList initState evs).map (fun d => d.win)).sum ∧
    (generateReport evs).summary.totalBets =
      ((acceptedBetList initState evs).length : Int) ∧
    (generateReport evs).summary.totalWins =
      ((acceptedWinList initState evs).length : Int) ∧
    (∀ d : GameData,
      ¬ (d ∈ acceptedBetList initState evs ∧ d ∈ acceptedWinList initState evs)) := by
  refine ⟨?_, ?_, ?_, ?_, ?_⟩
  · rw [report_totalBetAmount,
      show foldAgg evs = foldEvents initState evs from rfl,
      foldEvents_totalBetAmount evs initState]
    rw [show initState.totalBetAmount = 0 from rfl, zero_add]
  · rw [report_totalWinAmount,
      show foldAgg evs = foldEvents initState evs from rfl,
      foldEvents_totalWinAmount evs initState]
    rw [show initState.totalWinAmount = 0 from rfl, zero_add]
  · rw [report_totalBets,
      show foldAgg evs = foldEvents initState evs from rfl,
      foldEvents_totalBets evs initState]
    rw [show initState.totalBets = 0 from rfl, zero_add]
  · rw [report_totalWins,
      show foldAgg evs = foldEvents initState evs from rfl,
      foldEvents_totalWins evs initState]
    rw [show initState.totalWins = 0 from rfl, zero_add]
  · rintro d ⟨hb, hw⟩
    have h1 : d.message = "SendBet" := (mem_acceptedBetList hb).1
    have h2 : d.message = "SendWin" := (mem_acceptedWinList hw).1
    have : "SendBet" = "SendWin" := h1.symm.trans h2
    exact absurd this (by decide)

/-- Witness for C3 (the disjointness conjunct is universally quantified over
events): instantiated on the concrete stream `exBasic` and its Bet event. -/
theorem claim_C3_witness :
    (generateReport exBasic).summary.totalBetAmount =
      ((acceptedBetList initState exBasic).map (fun d => d.bet)).sum ∧
    ¬ (mkBet "A" "G" "b1" 100 900 10 ∈ acceptedBetList initState exBasic ∧
       mkBet "A" "G" "b1" 100 900 10 ∈ acceptedWinList initState exBasic) :=
  ⟨(claim_C3 exBasic).1, (claim_C3 exBasic).2.2.2.2 _⟩

/-! ### Claim C1 -/

theorem foldAgg_append_singleton (pre : List GameData) (d : GameData) :
    foldAgg (pre ++ [d]) = step (foldAgg pre) d := by
  unfold foldAgg
  rw [foldEvents_append]
  rfl

/-- The scenario stream of C1: a bet of 100 by `A` with id `b1`, the same
bet again (duplicate id), then a win of 50 with id `w1`. -/
def exScenario : List GameData :=
  [mkBet "A" "G" "b1" 100 900 10, mkBet "A" "G" "b1" 100 800 20,
   mkWin "A" "G" "w1" 50 950 30]

unseal Rat.mul Rat.inv List.merge List.mergeSort in
/-- C1: a Bet event whose non-empty bet identifier was already accepted
contributes nothing to the global, per-player, per-game or per-hour bet
statistics or to the top-bet candidate lists, and bumps only the
duplicate-bet counter (symmetrically for Win events); the first accepted
event registers its identifier and identifiers persist, so only the first
acceptance contributes.  The concrete scenario gives `totalBets = 1`,
`totalBetAmount = 100`, `totalWins = 1`, `totalWinAmount = 50`, one
duplicate bet, and `netResult = -50`, `rtp = 50` for player `A`. -/
theorem claim_C1 :
    (∀ (pre : List GameData) (d : GameData), isBetEvent d → d.betID ≠ "" →
      d.betID ∈ (foldAgg pre).uniqueBetIDs →
      (foldAgg (pre ++ [d])).totalBets = (foldAgg pre).totalBets ∧
      (foldAgg (pre ++ [d])).totalBetAmount = (foldAgg pre).totalBetAmount ∧
      (foldAgg (pre ++ [d])).playerStats = (foldAgg pre).playerStats ∧
      (foldAgg (pre ++ [d])).gameStats = (foldAgg pre).gameStats ∧
      (∀ h : Int, lookupD (foldAgg (pre ++ [d])).timeStats h { hour := h } =
        lookupD (foldAgg pre).timeStats h { hour := h }) ∧
      (foldAgg (pre ++ [d])).duplicateBets = (foldAgg pre).duplicateBets + 1 ∧
      (foldAgg (pre ++ [d])).duplicateWins = (foldAgg pre).duplicateWins) ∧
    (∀ (pre : List GameData) (d : GameData), isWinEvent d → d.winID ≠ "" →
      d.winID ∈ (foldAgg pre).uniqueWinIDs →
      (foldAgg (pre ++ [d])).totalWins = (foldAgg pre).totalWins ∧
      (foldAgg (pre ++ [d])).totalWinAmount = (foldAgg pre).totalWinAmount ∧
      (foldAgg (pre ++ [d])).playerStats = (foldAgg pre).playerStats ∧
      (foldAgg (pre ++ [d])).gameStats = (foldAgg pre).gameStats ∧
      (∀ h : Int, lookupD (foldAgg (pre ++ [d])).timeStats h { hour := h } =
        lookupD (foldAgg pre).timeStats h { hour := h }) ∧
      (foldAgg (pre ++ [d])).duplicateWins = (foldAgg pre).duplicateWins + 1 ∧
      (foldAgg (pre ++ [d])).duplicateBets = (foldAgg pre).duplicateBets) ∧
    (∀ (pre : List GameData) (d : GameData), isBetCounted (foldAgg pre) d →
      d.betID ≠ "" → d.betID ∈ (foldAgg (pre ++ [d])).uniqueBetIDs) ∧
    (∀ (pre : List GameData) (d : GameData) (x : String),
      x ∈ (foldAgg pre).uniqueBetIDs → x ∈ (foldAgg (pre ++ [d])).uniqueBetIDs) ∧
    ((generateReport exScenario).summary.totalBets = 1 ∧
      (generateReport exScenario).summary.totalBetAmount = 100 ∧
      (generateReport exScenario).summary.totalWins = 1 ∧
      (generateReport exScenario).summary.totalWinAmount = 50 ∧
      duplicateBetCount exScenario = 1 ∧
      (lookupD (generateReport exScenario).playerStats "A" {}).netResult = -50 ∧
      (lookupD (generateReport exScenario).playerStats "A" {}).rtp = 50) := by
  refine ⟨?_, ?_, ?_, ?_, by decide⟩
  · intro pre d h1 h2 h3
    rw [foldAgg_append_singleton,
      step_eq_dupBet h1 (show isDupBet (foldAgg pre) d from ⟨h2, h3⟩)]
    refine ⟨rfl, rfl, rfl, rfl, ?_, rfl, rfl⟩
    intro h
    exact lookupT_preUpdate (foldAgg pre) d h
  · intro pre d h1 h2 h3
    rw [foldAgg_append_singleton,
      step_eq_dupWin h1 (show isDupWin (foldAgg pre) d from ⟨h2, h3⟩)]
    refine ⟨rfl, rfl, rfl, rfl, ?_, rfl, rfl⟩
    intro h
    exact lookupT_preUpdate (foldAgg pre) d h
  · intro pre d hc h2
    rw [foldAgg_append_singleton, step_uniqueBetIDs, if_pos ⟨hc, h2⟩]
    exact mem_insertSet_self _ _
  · intro pre d x hx
    rw [foldAgg_append_singleton, step_uniqueBetIDs]
    by_cases h : isBetCounted (foldAgg pre) d ∧ d.betID ≠ ""
    · rw [if_pos h]
      exact mem_insertSet_of_mem hx _
    · rw [if_neg h]
      exact hx

unseal Rat.mul Rat.inv List.merge List.mergeSort in
/-- Witness for C1: the duplicate-frame part applied to the concrete prefix
`[Bet b1]` and the duplicate Bet event itself. -/
theorem claim_C1_witness :
    (foldAgg ([mkBet "A" "G" "b1" 100 900 10] ++ [mkBet "A" "G" "b1" 100 800 20])).totalBets =
      (foldAgg [mkBet "A" "G" "b1" 100 900 10]).totalBets ∧
    (foldAgg ([mkBet "A" "G" "b1" 100 900 10] ++ [mkBet "A" "G" "b1" 100 800 20])).duplicateBets =
      (foldAgg [mkBet "A" "G" "b1" 100 900 10]).duplicateBets + 1 := by
  have h := claim_C1.1 [mkBet "A" "G" "b1" 100 900 10] (mkBet "A" "G" "b1" 100 800 20)
    (by decide) (by decide) (by decide)
  exact ⟨h.1, h.2.2.2.2.2.1⟩

/-! ### Claim C2 -/

/-- The prefix for the C2 counterexample: one accepted bet with id `b1`. -/
def exDupPre : List GameData := [mkBet "A" "G" "b1" 100 900 10]

/-- A Bet event reusing id `b1` but naming a new player, a new game and a
later timestamp. -/
def exDupEvent : GameData := mkBet "B" "G2" "b1" 100 7 99

/-- Counterexample to C2 as stated: `exDupEvent` receives a Duplicate
verdict (the duplicate-bet counter goes from 0 to 1), yet the unique-player
set, the unique-game set and the max-timestamp bound all change across
processing it — the state does NOT differ only in the duplicate counter, and
the change is observable in the report's `uniquePlayers`/`uniqueGames`. -/
theorem claim_C2_counterexample :
    (foldAgg exDupPre).duplicateBets = 0 ∧
    (foldAgg (exDupPre ++ [exDupEvent])).duplicateBets = 1 ∧
    (foldAgg exDupPre).uniquePlayers.length = 1 ∧
    (foldAgg (exDupPre ++ [exDupEvent])).uniquePlayers.length = 2 ∧
    (foldAgg exDupPre).uniqueGames.length = 1 ∧
    (foldAgg (exDupPre ++ [exDupEvent])).uniqueGames.length = 2 ∧
    (foldAgg exDupPre).maxTime = 10 ∧
    (foldAgg (exDupPre ++ [exDupEvent])).maxTime = 99 ∧
    lookupD (foldAgg (exDupPre ++ [exDupEvent])).playerBalances "B" [] = [7] ∧
    lookupD (foldAgg exDupPre).playerBalances "B" [] = [] ∧
    (generateReport (exDupPre ++ [exDupEvent])).summary.uniquePlayers = 2 := by
  decide

unseal Rat.mul Rat.inv in
/-- C2 amended: an event with a Duplicate verdict changes the state exactly
by the always-performed pre-branch updates (`preUpdate`: unique player/game
sets, min/max timestamp bounds, the per-player balance list, hour-bucket
instantiation) plus an increment of the matching duplicate counter; all
bet/win counts and amounts, player/game/hour statistics and top candidate
lists are untouched. -/
theorem claim_C2_amended (s : AggState) (d : GameData) :
    (isBetEvent d → isDupBet s d →
      step s d = { preUpdate s d with duplicateBets := s.duplicateBets + 1 }) ∧
    (isWinEvent d → isDupWin s d →
      step s d = { preUpdate s d with duplicateWins := s.duplicateWins + 1 }) :=
  ⟨fun h1 h2 => step_eq_dupBet h1 h2, fun h1 h2 => step_eq_dupWin h1 h2⟩

/-- Witness for the amended C2 at the concrete duplicate event. -/
theorem claim_C2_witness :
    step (foldAgg exDupPre) exDupEvent =
      { preUpdate (foldAgg exDupPre) exDupEvent with
        duplicateBets := (foldAgg exDupPre).duplicateBets + 1 } :=
  (claim_C2_amended (foldAgg exDupPre) exDupEvent).1 (by decide) (by decide)

/-! ### Claim C6 -/

theorem screenPlayer_playerID {k : String} {p : PlayerStat} {ev : SuspiciousEvent}
    (h : screenPlayer k p = some ev) : ev.playerID = k := by
  unfold screenPlayer at h
  split_ifs at h
  · cases h
    rfl

theorem screenPlayer_type {k : String} {p : PlayerStat} {ev : SuspiciousEvent}
    (h : screenPlayer k p = some ev) : ev.type = "High RTP" := by
  unfold screenPlayer at h
  split_ifs at h
  · cases h
    rfl

theorem screenPlayer_eq_none {k : String} {p : PlayerStat}
    (h : ¬ (100 < p.totalBets ∧ 150 < p.rtp)) : screenPlayer k p = none := by
  unfold screenPlayer
  rw [if_neg h]

theorem screenPlayer_eq_some {k : String} {p : PlayerStat}
    (h : 100 < p.totalBets ∧ 150 < p.rtp) :
    screenPlayer k p =
      some { type := "High RTP"
             description := "Player has suspiciously high RTP"
             playerID := k
             detailRtp := p.rtp
             detailBets := p.totalBets } := by
  unfold screenPlayer
  rw [if_pos h]

theorem screen_countP_not_mem (l : List (String × PlayerStat)) (k : String)
    (hk : k ∉ l.map Prod.fst) :
    ((l.filterMap (fun kp => screenPlayer kp.1 kp.2)).countP
      (fun ev => ev.playerID == k)) = 0 := by
  induction l with
  | nil => rfl
  | cons hd tl ih =>
    obtain ⟨k', p'⟩ := hd
    simp only [List.map_cons, List.mem_cons] at hk
    push_neg at hk
    rw [List.filterMap_cons]
    cases hsc : screenPlayer k' p' with
    | none => exact ih hk.2
    | some ev =>
      rw [List.countP_cons]
      have : (ev.playerID == k) = false := by
        rw [screenPlayer_playerID hsc]
        simpa using fun h => hk.1 h.symm
      simp only [this, if_false, Nat.add_zero]
      exact ih hk.2

theorem screen_countP (l : List (String × PlayerStat))
    (hnd : (l.map Prod.fst).Nodup) (k : String) (p : PlayerStat)
    (hm : (k, p) ∈ l) :
    ((l.filterMap (fun kp => screenPlayer kp.1 kp.2)).countP
      (fun ev => ev.playerID == k)) =
      if 100 < p.totalBets ∧ 150 < p.rtp then 1 else 0 := by
  induction l with
  | nil => simp at hm
  | cons hd tl ih =>
    obtain ⟨k', p'⟩ := hd
    simp only [List.map_cons, List.nodup_cons] at hnd
    rcases List.mem_cons.mp hm with h1 | h1
    · cases h1
      rw [List.filterMap_cons]
      have hrest := screen_countP_not_mem tl k hnd.1
      by_cases hflag : 100 < p.totalBets ∧ 150 < p.rtp
      · rw [screenPlayer_eq_some hflag, List.countP_cons, hrest, if_pos hflag]
        simp
      · rw [screenPlayer_eq_none hflag, hrest, if_neg hflag]
    · have hk : k' ≠ k := by
        intro h
        subst h
        exact hnd.1 (List.mem_map_of_mem Prod.fst h1)
      rw [List.filterMap_cons]
      cases hsc : screenPlayer k' p' with
      | none => exact ih hnd.2 h1
      | some ev =>
        rw [List.countP_cons]
        have : (ev.playerID == k) = false := by
          rw [screenPlayer_playerID hsc]
          simpa using hk
        simp only [this, if_false, Nat.add_zero]
        exact ih hnd.2 h1

/-- Keys are unchanged by the per-player finalization pass. -/
theorem finalized_keys (evs : List GameData) :
    (((foldAgg evs).playerStats.map
        (fun kp => (kp.1, finalizePlayer kp.2))).map Prod.fst) =
      ((foldAgg evs).playerStats.map Prod.fst) := by
  rw [List.map_map]
  rfl

/-- The boundary stream: exactly 100 accepted bets of 10 (total 1000) and a
win of 1500, so player `A` finalizes with `totalBets = 100`, `rtp = 150`. -/
def exBoundary100 : List GameData :=
  List.replicate 100 (mkBet "A" "G" "" 10 0 10) ++ [mkWin "A" "G" "w1" 1500 0 30]

/-- The flagged stream of the claim: 150 accepted bets totaling 1000
(100 bets of 4 and 50 bets of 12) and a win of 2000, so `rtp = 200`. -/
def exFlagged150 : List GameData :=
  List.replicate 100 (mkBet "A" "G" "" 4 0 10) ++
    List.replicate 50 (mkBet "A" "G" "" 12 0 10) ++ [mkWin "A" "G" "w1" 2000 0 30]

set_option maxRecDepth 4000000 in
unseal Rat.mul Rat.inv List.merge List.mergeSort in
/-- C6: a finalized player yields a `High RTP` suspicious event iff its
`totalBets > 100` and its `rtp > 150` (both strict), and then exactly one
such event; with exactly 100 bets and RTP exactly 150 nothing is flagged,
and with 150 bets, 1000 total bet and 2000 total won (RTP 200) exactly one
event is emitted. -/
theorem claim_C6 :
    (∀ (evs : List GameData) (k : String) (p : PlayerStat),
      (k, p) ∈ (generateReport evs).playerStats →
      ((generateReport evs).suspiciousEvents.countP (fun ev => ev.playerID == k) =
        if 100 < p.totalBets ∧ 150 < p.rtp then 1 else 0) ∧
      (∀ ev ∈ (generateReport evs).suspiciousEvents, ev.type = "High RTP")) ∧
    ((lookupD (generateReport exBoundary100).playerStats "A" {}).totalBets = 100 ∧
     (lookupD (generateReport exBoundary100).playerStats "A" {}).rtp = 150 ∧
     (generateReport exBoundary100).suspiciousEvents = []) ∧
    ((lookupD (generateReport exFlagged150).playerStats "A" {}).totalBets = 150 ∧
     (lookupD (generateReport exFlagged150).playerStats "A" {}).totalBetAmount = 1000 ∧
     (lookupD (generateReport exFlagged150).playerStats "A" {}).totalWinAmount = 2000 ∧
     (lookupD (generateReport exFlagged150).playerStats "A" {}).rtp = 200 ∧
     (generateReport exFlagged150).suspiciousEvents.countP
       (fun ev => ev.playerID == "A") = 1 ∧
     (generateReport exFlagged150).suspiciousEvents.length = 1) := by
  refine ⟨?_, by decide, by decide⟩
  intro evs k p hm
  constructor
  · rw [report_suspiciousEvents]
    have hnd : ((((foldAgg evs).playerStats.map
        (fun kp => (kp.1, finalizePlayer kp.2))).map Prod.fst)).Nodup := by
      rw [finalized_keys]
      exact (stateInv_foldAgg evs).1
    exact screen_countP _ hnd k p hm
  · intro ev hev
    rw [report_suspiciousEvents] at hev
    obtain ⟨kp, _, hsc⟩ := List.mem_filterMap.mp hev
    exact screenPlayer_type hsc

set_option maxRecDepth 4000000 in
unseal Rat.mul Rat.inv List.merge List.mergeSort in
/-- Witness for C6: the characterization applied to player `A` of the
flagged 150-bet stream. -/
theorem claim_C6_witness :
    (generateReport exFlagged150).suspiciousEvents.countP
        (fun ev => ev.playerID == "A") =
      if 100 < (lookupD (generateReport exFlagged150).playerStats "A" {}).totalBets ∧
          150 < (lookupD (generateReport exFlagged150).playerStats "A" {}).rtp
      then 1 else 0 :=
  ((claim_C6.1 exFlagged150 "A" _ (by decide)).1)

/-! ### Claim C5 -/

/-- Modelled from the claim's words for C5: the candidate list sorted by
amount descending with a STABLE sort (ties keep insertion order), truncated
to the first 5. -/
def specTopBetsStable (l : List TopBet) : List TopBet :=
  (l.mergeSort (fun a b => decide (b.amount ≤ a.amount))).take 5

unseal List.merge List.mergeSort in
/-- Counterexample to C5 as stated: the code sorts with Go's `sort.Slice`,
whose contract (`sortSliceSpec`) promises only a sorted permutation and is
documented as NOT stable.  For the two-candidate list with equal amounts and
round ids `r1`, `r2` (in that insertion order) the reversed list satisfies
the `sort.Slice` contract, yet its first 5 entries differ from the
stable-sort-then-truncate result the claim requires. -/
theorem claim_C5_counterexample :
    sortSliceSpec betLess
      [{ amount := 10, roundID := "r1", time := 0 },
       { amount := 10, roundID := "r2", time := 0 }]
      [{ amount := 10, roundID := "r2", time := 0 },
       { amount := 10, roundID := "r1", time := 0 }] ∧
    ([({ amount := 10, roundID := "r2", time := 0 } : TopBet),
      { amount := 10, roundID := "r1", time := 0 }].take 5 ≠
      specTopBetsStable
        [{ amount := 10, roundID := "r1", time := 0 },
         { amount := 10, roundID := "r2", time := 0 }]) := by
  constructor
  · exact ⟨List.Perm.swap _ _ _, by decide⟩
  · decide

/-- C5 amended: the finalized `topBets`/`topWins` lists never exceed 5
entries and are sorted by amount descending; moreover any output admissible
under the `sort.Slice` contract has these two properties after truncation.
The tie-order part of the claim is dropped: `sort.Slice` is not stable, so
the order of equal amounts is not specified by the code. -/
theorem claim_C5_amended :
    (∀ (evs : List GameData) (k : String) (p : PlayerStat),
      (k, p) ∈ (generateReport evs).playerStats →
      p.topBets.length ≤ 5 ∧
      p.topBets.Pairwise (fun a b => b.amount ≤ a.amount) ∧
      p.topWins.length ≤ 5 ∧
      p.topWins.Pairwise (fun a b => b.amount ≤ a.amount)) ∧
    (∀ input output : List TopBet, sortSliceSpec betLess input output →
      (output.take 5).length ≤ 5 ∧
      (output.take 5).Pairwise (fun a b => b.amount ≤ a.amount)) := by
  constructor
  · intro evs k p hm
    obtain ⟨p0, _, hp⟩ := report_playerStats_mem.mp hm
    subst hp
    have hsortB : (p0.topBets.mergeSort
        (fun a b => decide (b.amount ≤ a.amount))).Pairwise
        (fun a b => b.amount ≤ a.amount) := by
      refine List.Pairwise.imp (fun h => of_decide_eq_true h) ?_
      exact List.sorted_mergeSort
        (fun a b c h1 h2 => by
          have h1' : b.amount ≤ a.amount := of_decide_eq_true h1
          have h2' : c.amount ≤ b.amount := of_decide_eq_true h2
          exact decide_eq_true (le_trans h2' h1'))
        (fun a b => by
          rcases le_total b.amount a.amount with h | h <;> simp [h])
        p0.topBets
    have hsortW : (p0.topWins.mergeSort
        (fun a b => decide (b.amount ≤ a.amount))).Pairwise
        (fun a b => b.amount ≤ a.amount) := by
      refine List.Pairwise.imp (fun h => of_decide_eq_true h) ?_
      exact List.sorted_mergeSort
        (fun a b c h1 h2 => by
          have h1' : b.amount ≤ a.amount := of_decide_eq_true h1
          have h2' : c.amount ≤ b.amount := of_decide_eq_true h2
          exact decide_eq_true (le_trans h2' h1'))
        (fun a b => by
          rcases le_total b.amount a.amount with h | h <;> simp [h])
        p0.topWins
    rw [finalizePlayer_topBets, finalizePlayer_topWins]
    refine ⟨?_, ?_, ?_, ?_⟩
    · by_cases h : 5 < (p0.topBets.mergeSort
          (fun a b => decide (b.amount ≤ a.amount))).length
      · simp only [h, if_pos]
        rw [List.length_take]
        exact min_le_left _ _
      · simp only [h, if_neg, if_false]
        omega
    · by_cases h : 5 < (p0.topBets.mergeSort
          (fun a b => decide (b.amount ≤ a.amount))).length
      · simp only [h, if_pos]
        exact List.Pairwise.sublist (List.take_sublist _ _) hsortB
      · simp only [h, if_neg, if_false]
        exact hsortB
    · by_cases h : 5 < (p0.topWins.mergeSort
          (fun a b => decide (b.amount ≤ a.amount))).length
      · simp only [h, if_pos]
        rw [List.length_take]
        exact min_le_left _ _
      · simp only [h, if_neg, if_false]
        omega
    · by_cases h : 5 < (p0.topWins.mergeSort
          (fun a b => decide (b.amount ≤ a.amount))).length
      · simp only [h, if_pos]
        exact List.Pairwise.sublist (List.take_sublist _ _) hsortW
      · simp only [h, if_neg, if_false]
        exact hsortW
  · intro input output hso
    constructor
    · rw [List.length_take]
      exact min_le_left _ _
    · refine List.Pairwise.sublist (List.take_sublist _ _) ?_
      refine List.Pairwise.imp ?_ hso.2
      intro a b h
      have : ¬ a.amount < b.amount := of_decide_eq_false h
      omega

unseal Rat.mul Rat.inv List.merge List.mergeSort in
/-- Witness for the amended C5 at player `A` of the concrete stream. -/
theorem claim_C5_witness :
    (lookupD (generateReport exBasic).playerStats "A" {}).topBets.length ≤ 5 ∧
    (lookupD (generateReport exBasic).playerStats "A" {}).topBets.Pairwise
      (fun a b => b.amount ≤ a.amount) :=
  ⟨(claim_C5_amended.1 exBasic "A" _ (by decide)).1,
   (claim_C5_amended.1 exBasic "A" _ (by decide)).2.1⟩

/-! ### Claim C7 -/

/-- Modelled from the claim's words for C7: the number of distinct players
with a Bet-bearing or Win-bearing event on the game. -/
def specTransactingPlayers (evs : List GameData) (g : String) : Nat :=
  (((evs.filter (fun d => d.gameID == g &&
      (decide (isBetEvent d) || decide (isWinEvent d)))).map
    (fun d => d.playerID)).dedup).length

/-- Stream for the C7 counterexample: player `A` bets on game `G`, and
player `B` merely appears on `G` with an inert (non-Bet, non-Win) event. -/
def exGameOther : List GameData :=
  [mkBet "A" "G" "b1" 10 0 10, mkOther "B" "G" 20]

unseal Rat.mul Rat.inv List.merge List.mergeSort in
/-- Counterexample to C7 as stated: the finalized record of game `G` counts
2 distinct players, but only 1 player has a Bet-bearing or Win-bearing event
on `G` — the second pass counts every event with that `gameID`, inert events
included. -/
theorem claim_C7_counterexample :
    (lookupD (generateReport exGameOther).gameStats "G" {}).players = 2 ∧
    specTransactingPlayers exGameOther "G" = 1 := by
  decide

theorem playersInGame_toFinset (g : String) (evs : List GameData) :
    ∀ acc : List String,
      (evs.foldl (fun acc d =>
          if d.gameID = g then insertSet acc d.playerID else acc) acc).toFinset =
        acc.toFinset ∪
          ((evs.filter (fun d => d.gameID == g)).map
            (fun d => d.playerID)).toFinset := by
  induction evs with
  | nil => intro acc; simp
  | cons d rest ih =>
    intro acc
    by_cases h : d.gameID = g
    · have hb : (d.gameID == g) = true := by simpa using h
      rw [List.foldl_cons, if_pos h, ih (insertSet acc d.playerID),
        List.filter_cons_of_pos (by simpa using hb), List.map_cons,
        insertSet_toFinset]
      ext x
      simp only [Finset.mem_union, Finset.mem_insert, List.mem_toFinset,
        List.mem_cons]
      tauto
    · have hb : (d.gameID == g) = false := by simpa using h
      rw [List.foldl_cons, if_neg h, ih acc,
        List.filter_cons_of_neg (by simpa using hb)]

theorem playersInGame_nodup (g : String) (evs : List GameData) :
    ∀ acc : List String, acc.Nodup →
      (evs.foldl (fun acc d =>
          if d.gameID = g then insertSet acc d.playerID else acc) acc).Nodup := by
  induction evs with
  | nil => intro acc h; exact h
  | cons d rest ih =>
    intro acc h
    by_cases hg : d.gameID = g
    · rw [List.foldl_cons, if_pos hg]
      exact ih _ (insertSet_nodup h _)
    · rw [List.foldl_cons, if_neg hg]
      exact ih _ h

/-- C7 amended: a finalized game record's unique-player count is recomputed
at finalization by a second pass over the full event set, and equals the
number of distinct players appearing on ANY event carrying that `gameID` —
inert and non-Bet/Win events included, not just Bet/Win-bearing ones. -/
theorem claim_C7_amended (evs : List GameData) :
    ∀ g st, (g, st) ∈ (generateReport evs).gameStats →
      st.players = ((playersInGame evs g).length : Int) ∧
      (playersInGame evs g).length =
        ((evs.filter (fun d => d.gameID == g)).map
          (fun d => d.playerID)).toFinset.card := by
  intro g st hm
  obtain ⟨g0, _, hg⟩ := report_gameStats_mem.mp hm
  subst hg
  refine ⟨finalizeGame_players evs g g0, ?_⟩
  have hnd : (playersInGame evs g).Nodup :=
    playersInGame_nodup g evs [] List.nodup_nil
  have hfs : (playersInGame evs g).toFinset =
      ((evs.filter (fun d => d.gameID == g)).map (fun d => d.playerID)).toFinset := by
    have := playersInGame_toFinset g evs []
    simpa [playersInGame] using this
  rw [← hfs, List.toFinset_card_of_nodup hnd]

unseal Rat.mul Rat.inv List.merge List.mergeSort in
/-- Witness for the amended C7 at game `G` of the counterexample stream. -/
theorem claim_C7_witness :
    (lookupD (generateReport exGameOther).gameStats "G" {}).players =
      ((playersInGame exGameOther "G").length : Int) ∧
    (playersInGame exGameOther "G").length =
      ((exGameOther.filter (fun d => d.gameID == "G")).map
        (fun d => d.playerID)).toFinset.card :=
  claim_C7_amended exGameOther "G" _ (by decide)

/-! ### Claim C9 -/

/-- Modelled from the claim's words for C9: the `BalanceAfter` of the
stream-order-last event touching the player — any event whose `playerID`
matches, regardless of kind, amount or duplicate verdict. -/
def specLastTouchBalance (evs : List GameData) (k : String) : Option Int :=
  ((evs.filter (fun d => d.playerID == k)).map (fun d => d.balance)).getLast?

/-- Stream for the C9 counterexample: an accepted bet with balance 500, then
a duplicate of it carrying balance 999. -/
def exDup9 : List GameData :=
  [mkBet "A" "G" "b1" 100 500 10, mkBet "A" "G" "b1" 100 999 20]

unseal Rat.mul Rat.inv List.merge List.mergeSort in
/-- Counterexample to C9 as stated: the last-processed event touching player
`A` is the duplicate bet with balance 999, but the report keeps
`lastBalance = 500` — duplicates (and inert events) do not update the
balance. -/
theorem claim_C9_counterexample :
    (lookupD (generateReport exDup9).playerStats "A" {}).lastBalance = 500 ∧
    specLastTouchBalance exDup9 "A" = some 999 := by
  decide

theorem getLast?_balance (l : List GameData) :
    ∀ a : Int, l ≠ [] →
      (l.map (fun d => d.balance)).getLast? =
        some (l.foldl (fun _ d => d.balance) a) := by
  induction l with
  | nil => intro a h; exact absurd rfl h
  | cons d rest ih =>
    intro a h
    cases rest with
    | nil => rfl
    | cons e rest' =>
      rw [List.map_cons, List.map_cons, List.getLast?_cons_cons,
        ← List.map_cons, List.foldl_cons]
      exact ih d.balance (by simp)

/-- C9 amended: a finalized player record's `lastBalance` is the
`BalanceAfter` of the stream-order-last COUNTED event of that player — the
last accepted (non-duplicate, positive) Bet or Win; inert events and
duplicates touching the player do not overwrite it. -/
theorem claim_C9_amended (evs : List GameData) :
    ∀ k p, (k, p) ∈ (generateReport evs).playerStats →
      ((countedEvents initState evs).filter (fun d => d.playerID == k)) ≠ [] ∧
      (((countedEvents initState evs).filter (fun d => d.playerID == k)).map
          (fun d => d.balance)).getLast? = some p.lastBalance := by
  intro k p hm
  obtain ⟨p0, hm0, hp⟩ := report_playerStats_mem.mp hm
  have hnd := (stateInv_foldAgg evs).1
  have hl := mem_of_nodup_lookupD hnd hm0 ({} : PlayerStat)
  have hbal := foldEvents_player_lastBalance evs initState k
  rw [show foldEvents initState evs = foldAgg evs from rfl, hl] at hbal
  have hne :
      ((countedEvents initState evs).filter (fun d => d.playerID == k)) ≠ [] := by
    have hc : containsK (foldEvents initState evs).playerStats k = true :=
      (containsK_iff_mem_keys _ _).mpr (List.mem_map_of_mem Prod.fst hm0)
    rw [foldEvents_player_containsK evs initState k] at hc
    rw [show containsK initState.playerStats k = false from rfl,
      Bool.false_or] at hc
    obtain ⟨d, hd, hdk⟩ := List.any_eq_true.mp hc
    intro hnil
    have : d ∈ (countedEvents initState evs).filter (fun d => d.playerID == k) :=
      List.mem_filter.mpr ⟨hd, hdk⟩
    simp [hnil] at this
  subst hp
  rw [finalizePlayer_lastBalance]
  refine ⟨hne, ?_⟩
  rw [hbal, getLast?_balance _ _ hne]

unseal Rat.mul Rat.inv List.merge List.mergeSort in
/-- Witness for the amended C9 at player `A` of the duplicate stream: the
last counted event is the first bet, with balance 500. -/
theorem claim_C9_witness :
    ((countedEvents initState exDup9).filter (fun d => d.playerID == "A")) ≠ [] ∧
    (((countedEvents initState exDup9).filter (fun d => d.playerID == "A")).map
        (fun d => d.balance)).getLast? =
      some (lookupD (generateReport exDup9).playerStats "A" {}).lastBalance :=
  claim_C9_amended exDup9 "A" _ (by decide)

/-! ### Claim C8 -/

theorem timeSpanString_ne_empty (a b : Rat) : timeSpanString a b ≠ "" := by
  intro h
  have h2 := congrArg String.length h
  rw [timeSpanString, String.length_append, String.length_append] at h2
  have h3 : (" - " : String).length = 3 := rfl
  rw [h3] at h2
  simp at h2

theorem foldl_min_le_init (l : List Rat) : ∀ a : Rat, l.foldl min a ≤ a := by
  induction l with
  | nil => intro a; exact le_refl a
  | cons x xs ih =>
    intro a
    rw [List.foldl_cons]
    exact le_trans (ih (min a x)) (min_le_left a x)

theorem foldl_min_le_mem (l : List Rat) :
    ∀ (a x : Rat), x ∈ l → l.foldl min a ≤ x := by
  induction l with
  | nil => intro a x hx; simp at hx
  | cons y ys ih =>
    intro a x hx
    rw [List.foldl_cons]
    rcases List.mem_cons.mp hx with h | h
    · subst h
      exact le_trans (foldl_min_le_init ys (min a x)) (min_le_right a x)
    · exact ih (min a y) x h

theorem foldl_min_cases (l : List Rat) :
    ∀ a : Rat, l.foldl min a = a ∨ l.foldl min a ∈ l := by
  induction l with
  | nil => intro a; exact Or.inl rfl
  | cons x xs ih =>
    intro a
    rw [List.foldl_cons]
    rcases ih (min a x) with h | h
    · rcases min_choice a x with h2 | h2
      · exact Or.inl (h.trans h2)
      · exact Or.inr (by rw [h, h2]; exact List.mem_cons_self x xs)
    · exact Or.inr (List.mem_cons_of_mem x h)

theorem le_foldl_max_init (l : List Rat) : ∀ a : Rat, a ≤ l.foldl max a := by
  induction l with
  | nil => intro a; exact le_refl a
  | cons x xs ih =>
    intro a
    rw [List.foldl_cons]
    exact le_trans (le_max_left a x) (ih (max a x))

theorem le_foldl_max_mem (l : List Rat) :
    ∀ (a x : Rat), x ∈ l → x ≤ l.foldl max a := by
  induction l with
  | nil => intro a x hx; simp at hx
  | cons y ys ih =>
    intro a x hx
    rw [List.foldl_cons]
    rcases List.mem_cons.mp hx with h | h
    · subst h
      exact le_trans (le_max_right a x) (le_foldl_max_init ys (max a x))
    · exact ih (max a y) x h

theorem foldl_max_cases (l : List Rat) :
    ∀ a : Rat, l.foldl max a = a ∨ l.foldl max a ∈ l := by
  induction l with
  | nil => intro a; exact Or.inl rfl
  | cons x xs ih =>
    intro a
    rw [List.foldl_cons]
    rcases ih (max a x) with h | h
    · rcases max_choice a x with h2 | h2
      · exact Or.inl (h.trans h2)
      · exact Or.inr (by rw [h, h2]; exact List.mem_cons_self x xs)
    · exact Or.inr (List.mem_cons_of_mem x h)

theorem foldEvents_maxTime (evs : List GameData) :
    ∀ s : AggState,
      (foldEvents s evs).maxTime = (evs.map (fun d => d.ts)).foldl max s.maxTime := by
  induction evs with
  | nil => intro s; rfl
  | cons d rest ih =>
    intro s
    rw [foldEvents_cons, ih (step s d), List.map_cons, List.foldl_cons,
      step_maxTime]
    congr 1
    rcases lt_or_le s.maxTime d.ts with h | h
    · rw [if_pos h, max_eq_right h.le]
    · rw [if_neg (not_lt.mpr h), max_eq_left h]

theorem foldEvents_minTime_nonneg (evs : List GameData) :
    ∀ s : AggState, 0 ≤ s.minTime → (∀ d ∈ evs, 0 ≤ d.ts) →
      (foldEvents s evs).minTime =
        (evs.map (fun d => d.ts)).foldl min s.minTime := by
  induction evs with
  | nil => intro s _ _; rfl
  | cons d rest ih =>
    intro s hs hts
    have hstep : (step s d).minTime = min s.minTime d.ts := by
      rw [step_minTime]
      rcases lt_or_le d.ts s.minTime with h | h
      · rw [if_pos (Or.inr h), min_eq_right h.le]
      · rw [if_neg ?_, min_eq_left h]
        rintro (h2 | h2)
        · exact absurd hs (not_le.mpr h2)
        · exact absurd h (not_le.mpr h2)
    rw [foldEvents_cons, List.map_cons, List.foldl_cons,
      ih (step s d) (by rw [hstep]; exact le_min hs (hts d (List.mem_cons_self d rest)))
        (fun e he => hts e (List.mem_cons_of_mem d he)),
      hstep]

/-- Stream for the C8 counterexample: two inert events at timestamps `-1`
and `1`. -/
def exNeg : List GameData := [mkOther "A" "G" (-1), mkOther "A" "G" 1]

/-- Counterexample to C8 as stated: the stream is non-empty and its maximum
timestamp (1) strictly exceeds its minimum (-1), yet the time-span string is
empty — the code treats a negative running minimum as "uninitialized"
(`minTime = -1` sentinel), so negative timestamps defeat the condition. -/
theorem claim_C8_counterexample :
    exNeg ≠ [] ∧
    (∃ d1 ∈ exNeg, ∃ d2 ∈ exNeg, d1.ts < d2.ts) ∧
    (generateReport exNeg).summary.timeSpan = "" := by
  refine ⟨by decide, ⟨mkOther "A" "G" (-1), by decide,
    mkOther "A" "G" 1, by decide, by decide⟩, by decide⟩

/-- C8 amended: PROVIDED every event timestamp is non-negative, the
summary's time-span string is non-empty exactly when the stream holds two
events with distinct timestamps (equivalently: it is non-empty and its
maximum timestamp strictly exceeds its minimum).  With negative timestamps
the sentinel `minTime = -1` conflates "uninitialized" with real values and
the string can be empty despite a proper span. -/
theorem claim_C8_amended (evs : List GameData) (hpos : ∀ d ∈ evs, 0 ≤ d.ts) :
    (generateReport evs).summary.timeSpan ≠ "" ↔
      ∃ d1 ∈ evs, ∃ d2 ∈ evs, d1.ts < d2.ts := by
  rw [report_timeSpan]
  cases evs with
  | nil =>
    have hmin : (foldAgg []).minTime = -1 := rfl
    rw [if_neg ?_]
    · constructor
      · intro h; exact absurd rfl h
      · rintro ⟨d1, hd1, _⟩
        simp at hd1
    · rw [hmin]
      rintro ⟨h, _⟩
      norm_num at h
  | cons d rest =>
    have hts0 : 0 ≤ d.ts := hpos d (List.mem_cons_self d rest)
    have hstep_min : (step initState d).minTime = d.ts := by
      rw [step_minTime]
      refine if_pos (Or.inl ?_)
      rw [show initState.minTime = -1 from rfl]
      norm_num
    have hstep_max : (step initState d).maxTime = d.ts := by
      rw [step_maxTime, show initState.maxTime = 0 from rfl]
      rcases lt_or_le (0 : Rat) d.ts with h | h
      · exact if_pos h
      · rw [if_neg (not_lt.mpr h)]
        exact le_antisymm hts0 h
    have hmin : (foldAgg (d :: rest)).minTime =
        (rest.map (fun e => e.ts)).foldl min d.ts := by
      show (foldEvents (step initState d) rest).minTime = _
      rw [foldEvents_minTime_nonneg rest (step initState d)
        (by rw [hstep_min]; exact hts0)
        (fun e he => hpos e (List.mem_cons_of_mem d he)), hstep_min]
    have hmax : (foldAgg (d :: rest)).maxTime =
        (rest.map (fun e => e.ts)).foldl max d.ts := by
      show (foldEvents (step initState d) rest).maxTime = _
      rw [foldEvents_maxTime rest (step initState d), hstep_max]
    have hminpos : 0 ≤ (foldAgg (d :: rest)).minTime := by
      rw [hmin]
      rcases foldl_min_cases (rest.map (fun e => e.ts)) d.ts with h | h
      · rw [h]; exact hts0
      · obtain ⟨e, he, hee⟩ := List.mem_map.mp h
        rw [← hee]
        exact hpos e (List.mem_cons_of_mem d he)
    constructor
    · intro hne
      by_cases hcond : 0 ≤ (foldAgg (d :: rest)).minTime ∧
          (foldAgg (d :: rest)).minTime < (foldAgg (d :: rest)).maxTime
      · obtain ⟨_, hlt⟩ := hcond
        rw [hmin, hmax] at hlt
        have hminmem : ∃ d1 ∈ d :: rest,
            d1.ts = (rest.map (fun e => e.ts)).foldl min d.ts := by
          rcases foldl_min_cases (rest.map (fun e => e.ts)) d.ts with h | h
          · exact ⟨d, List.mem_cons_self d rest, h.symm⟩
          · obtain ⟨e, he, hee⟩ := List.mem_map.mp h
            exact ⟨e, List.mem_cons_of_mem d he, hee⟩
        have hmaxmem : ∃ d2 ∈ d :: rest,
            d2.ts = (rest.map (fun e => e.ts)).foldl max d.ts := by
          rcases foldl_max_cases (rest.map (fun e => e.ts)) d.ts with h | h
          · exact ⟨d, List.mem_cons_self d rest, h.symm⟩
          · obtain ⟨e, he, hee⟩ := List.mem_map.mp h
            exact ⟨e, List.mem_cons_of_mem d he, hee⟩
        obtain ⟨d1, hd1, he1⟩ := hminmem
        obtain ⟨d2, hd2, he2⟩ := hmaxmem
        exact ⟨d1, hd1, d2, hd2, by rw [he1, he2]; exact hlt⟩
      · rw [if_neg hcond] at hne
        exact absurd rfl hne
    · rintro ⟨d1, hd1, d2, hd2, hlt⟩
      have hle1 : (foldAgg (d :: rest)).minTime ≤ d1.ts := by
        rw [hmin]
        rcases List.mem_cons.mp hd1 with h | h
        · rw [h]
          exact foldl_min_le_init _ _
        · exact foldl_min_le_mem _ _ _ (List.mem_map_of_mem (fun e => e.ts) h)
      have hle2 : d2.ts ≤ (foldAgg (d :: rest)).maxTime := by
        rw [hmax]
        rcases List.mem_cons.mp hd2 with h | h
        · rw [h]
          exact le_foldl_max_init _ _
        · exact le_foldl_max_mem _ _ _ (List.mem_map_of_mem (fun e => e.ts) h)
      rw [if_pos ⟨hminpos, lt_of_le_of_lt hle1 (lt_of_lt_of_le hlt hle2)⟩]
      exact timeSpanString_ne_empty _ _

/-- Witness for the amended C8: on a stream with timestamps 10 and 30 the
span is non-empty. -/
theorem claim_C8_witness :
    (generateReport exBasic).summary.timeSpan ≠ "" :=
  (claim_C8_amended exBasic (by decide)).mpr
    ⟨mkBet "A" "G" "b1" 100 900 10, by decide,
     mkWin "A" "G" "w1" 50 950 30, by decide, by decide⟩

end FraudDetector
